import Mathlib

/-!
Verification of the `jg-garmin-to-sheets` daily-health-metrics sync utility.

This file gives a shallow embedding, in Lean 4, of the data model and the
operations of the repository (`src/config.py`, `src/garmin_client.py`,
`src/main.py`, `src/sheets_client.py`, `src/drive_client.py`,
`src/parser.py`) and proves, or refutes, the stated properties of the
specification against that embedding.

Conventions of the embedding:
* Python numbers (ints and floats) are modelled as exact rationals `ℚ`;
  `round` is Python 3 `round` (banker's rounding), `int(x)` truncates
  toward zero, `//` and `%` are floor division and floor modulus.
* Raw JSON-ish payloads returned by the upstream API are modelled by the
  inductive type `JVal` (`null` doubles as Python `None`).
* Python code that can raise is modelled in the `Except String` monad;
  a `try/except` handler is a `match` on that result.
* Calendar dates are modelled as proleptic-Gregorian day numbers (`Int`,
  days since 1970-01-01), with `dateToISO`/`parseISO` converting to and
  from `"YYYY-MM-DD"` strings.
-/

namespace Garmin

/-! ## Rational / Python arithmetic helpers -/

/-- Python 3 `round(x)`: round half to even, returning an integer. -/
def pyRound (q : ℚ) : Int :=
  let f : Int := ⌊q⌋
  let r : ℚ := q - f
  if r < 1/2 then f
  else if 1/2 < r then f + 1
  else if f % 2 = 0 then f else f + 1

/-- Python `int(x)` on a number: truncation toward zero. -/
def pyInt (q : ℚ) : Int :=
  if 0 ≤ q then ⌊q⌋ else ⌈q⌉

/-- Python `round(x, 2)`: round to two decimal places (half to even). -/
def pyRound2 (q : ℚ) : ℚ :=
  (pyRound (q * 100) : ℚ) / 100

/-- Python `round(x, 1)`: round to one decimal place (half to even). -/
def pyRound1 (q : ℚ) : ℚ :=
  (pyRound (q * 10) : ℚ) / 10

/-- Python `x % y` on numbers (floor modulus), for positive `y`. -/
def qmod (x y : ℚ) : ℚ := x - y * (⌊x / y⌋ : ℚ)

/-- Python `x // y` on numbers (floor division). -/
def qfdiv (x y : ℚ) : Int := ⌊x / y⌋

/-- Arithmetic mean of a list of rationals (`statistics.mean`);
0 on the empty list, which the sources always guard against. -/
def meanQ (l : List ℚ) : ℚ := l.sum / (l.length : ℚ)

/-- Render a natural number with at least two digits (Python `f"{n:02d}"`
for the nonnegative arguments the sources produce). -/
def pad2 (n : Int) : String :=
  if n < 10 ∧ 0 ≤ n then "0" ++ toString n else toString n

/-! ## Calendar dates

Dates are day numbers relative to the Unix epoch (1970-01-01), converted
with the standard civil-calendar algorithms. -/

/-- Day number (days since 1970-01-01) of a proleptic-Gregorian date. -/
def daysFromCivil (y m d : Int) : Int :=
  let y1 := if m ≤ 2 then y - 1 else y
  let era := (if 0 ≤ y1 then y1 else y1 - 399) / 400
  let yoe := y1 - era * 400
  let mp := (m + 9) % 12
  let doy := (153 * mp + 2) / 5 + d - 1
  let doe := yoe * 365 + yoe / 4 - yoe / 100 + doy
  era * 146097 + doe - 719468

/-- Civil date (year, month, day) of a day number. -/
def civilFromDays (z0 : Int) : Int × Int × Int :=
  let z := z0 + 719468
  let era := (if 0 ≤ z then z else z - 146096) / 146097
  let doe := z - era * 146097
  let yoe := (doe - doe / 1460 + doe / 36524 - doe / 146096) / 365
  let y := yoe + era * 400
  let doy := doe - (365 * yoe + yoe / 4 - yoe / 100)
  let mp := (5 * doy + 2) / 153
  let d := doy - (153 * mp + 2) / 5 + 1
  let m := if mp < 10 then mp + 3 else mp - 9
  (if m ≤ 2 then y + 1 else y, m, d)

/-- Render a nonnegative integer with at least four digits. -/
def pad4 (n : Int) : String :=
  if n < 10 ∧ 0 ≤ n then "000" ++ toString n
  else if n < 100 ∧ 0 ≤ n then "00" ++ toString n
  else if n < 1000 ∧ 0 ≤ n then "0" ++ toString n
  else toString n

/-- `date.isoformat()`: ISO `YYYY-MM-DD` string of a day number. -/
def dateToISO (day : Int) : String :=
  let c := civilFromDays day
  pad4 c.1 ++ "-" ++ pad2 c.2.1 ++ "-" ++ pad2 c.2.2

/-- Number of days in a month of the proleptic Gregorian calendar. -/
def daysInMonth (y m : Int) : Int :=
  if m = 2 then (if y % 4 = 0 ∧ (y % 100 ≠ 0 ∨ y % 400 = 0) then 29 else 28)
  else if m = 4 ∨ m = 6 ∨ m = 9 ∨ m = 11 then 30
  else 31

/-- Split a character list on a separator character (the list analogue
of Python `str.split` with a one-character separator). -/
def splitChars (sep : Char) : List Char → List (List Char)
  | [] => [[]]
  | c :: rest =>
    let r := splitChars sep rest
    if c = sep then [] :: r
    else (c :: r.headD []) :: r.tail

/-- Accumulating decimal-digit parser over a character list. -/
def digitsToNat (acc : Nat) : List Char → Option Nat
  | [] => some acc
  | c :: cs =>
    if '0' ≤ c ∧ c ≤ '9' then digitsToNat (acc * 10 + (c.toNat - 48)) cs
    else none

/-- `int(s)` for an unsigned decimal string, `none` on any junk. -/
def charsToNat? : List Char → Option Nat
  | [] => none
  | c :: cs => digitsToNat 0 (c :: cs)

/-- `int(s)` allowing one leading minus sign. -/
def charsToInt? (cs : List Char) : Option Int :=
  match cs with
  | '-' :: rest => (charsToNat? rest).map (fun n => -(n : Int))
  | _ => (charsToNat? cs).map (fun n => (n : Int))

/-- Parse a `"YYYY-MM-DD"` string to a day number, validating the calendar
(the model of `datetime.strptime(s, "%Y-%m-%d")`); `none` on failure. -/
def parseISO (s : String) : Option Int :=
  match splitChars '-' s.data with
  | [ys, ms, ds] =>
    match charsToNat? ys, charsToNat? ms, charsToNat? ds with
    | some y, some m, some d =>
      if ys.length = 4 ∧ 1 ≤ m ∧ m ≤ 12 ∧ 1 ≤ d ∧ (d : Int) ≤ daysInMonth y m then
        some (daysFromCivil y m d)
      else none
    | _, _, _ => none
  | _ => none

/-! ## Python value model

`JVal` models the loosely-typed values the upstream API returns and the
values Python variables hold during extraction; `JVal.null` doubles as
Python `None`. -/

inductive JVal where
  | null : JVal
  | num (q : ℚ) : JVal
  | str (s : String) : JVal
  | arr (xs : List JVal) : JVal
  | obj (fs : List (String × JVal)) : JVal

namespace JVal

/-- Python `v == s` for a string literal `s`: true exactly when `v` is
that string (no cross-type equality in the payloads involved). -/
def eqStr (v : JVal) (s : String) : Bool :=
  match v with
  | .str s2 => decide (s2 = s)
  | _ => false

/-- Python `v is None`. -/
def isNull : JVal → Bool
  | .null => true
  | _ => false

/-- Python truthiness (`bool(v)`). -/
def truthy : JVal → Bool
  | .null => false
  | .num q => decide (q ≠ 0)
  | .str s => decide (s ≠ "")
  | .arr xs => !xs.isEmpty
  | .obj fs => !fs.isEmpty

/-- Python `a or b` (with both operands already evaluated, as at every
use site in the sources where the second operand cannot raise). -/
def orElse (a b : JVal) : JVal := if a.truthy then a else b

/-- First binding of a key in a dict's field list (Python dict keys are
unique, so first = only). -/
def lookupF (fs : List (String × JVal)) (k : String) : Option JVal :=
  match fs with
  | [] => none
  | (k2, v) :: rest => if k2 = k then some v else lookupF rest k

/-- Python `v.get(k)`: `None` when the key is absent; `AttributeError`
when `v` is not a dict. -/
def pyGet (v : JVal) (k : String) : Except String JVal :=
  match v with
  | .obj fs => .ok ((lookupF fs k).getD .null)
  | _ => .error ("AttributeError: get " ++ k)

/-- Python `v.get(k, d)` with an explicit default. -/
def pyGetD (v : JVal) (k : String) (d : JVal) : Except String JVal :=
  match v with
  | .obj fs => .ok ((lookupF fs k).getD d)
  | _ => .error ("AttributeError: get " ++ k)

/-- The suffixes of a character list, longest first. -/
def tailsOf : List Char → List (List Char)
  | [] => [[]]
  | c :: cs => (c :: cs) :: tailsOf cs

/-- Whether `k` occurs as a substring of `s` (Python `k in s`). -/
def strContainsSub (s k : String) : Bool :=
  (tailsOf s.data).any (fun t => k.data.isPrefixOf t)

/-- Python `k in v` for a string key: key test on dicts, membership on
lists, substring on strings, `TypeError` otherwise. -/
def pyHasKey (v : JVal) (k : String) : Except String Bool :=
  match v with
  | .obj fs => .ok (fs.any (fun p => p.1 = k))
  | .arr xs => .ok (xs.any (fun x => x.eqStr k))
  | .str s => .ok (strContainsSub s k)
  | _ => .error "TypeError: argument not iterable"

/-- Python `v[k]` for a string key: `KeyError` when absent,
`TypeError` when `v` is not a dict. -/
def pyIndex (v : JVal) (k : String) : Except String JVal :=
  match v with
  | .obj fs =>
    match lookupF fs k with
    | some x => .ok x
    | none => .error ("KeyError: " ++ k)
  | _ => .error "TypeError: not subscriptable"

/-- Coerce to a number, as Python arithmetic does (`TypeError`
otherwise). -/
def pyToNum (v : JVal) : Except String ℚ :=
  match v with
  | .num q => .ok q
  | _ => .error "TypeError: not a number"

/-- `x = x or {}` followed by `if isinstance(x, list): x = x[0] if x
else {}` — the normalization applied to the summary, sleep and
training-status sections in `GarminClient.get_metrics`. -/
def normalizeSection (v : JVal) : JVal :=
  let v1 := if v.truthy then v else .obj []
  match v1 with
  | .arr [] => .obj []
  | .arr (x :: _) => x
  | _ => v1

end JVal

/-- `statistics.mean` over raw values: `TypeError` on any non-number. -/
def pyMeanJ (l : List JVal) : Except String ℚ := do
  let nums ← l.mapM JVal.pyToNum
  return meanQ nums

/-- `GarminClient._calculate_pace`: empty string on falsy or
non-positive speeds, otherwise `"M:SS"` seconds-per-km pace; raises
(`TypeError`) on a truthy non-numeric argument. -/
def calculatePace (v : JVal) : Except String String :=
  if ¬v.truthy then .ok ""
  else
    match v with
    | .num q =>
      if q ≤ 0 then .ok ""
      else
        let secPerKm : ℚ := 1000 / q
        let pmin : Int := pyInt (secPerKm / 60)
        let psec : Int := pyInt (qmod secPerKm 60)
        .ok (toString pmin ++ ":" ++ pad2 psec)
    | _ => .error "TypeError: comparison"

/-- `datetime.fromtimestamp(ms/1000).strftime('%H:%M')`, with the local
timezone modelled as a fixed offset of `tz` minutes from UTC. -/
def epochMillisToHHMM (tz : Int) (ms : ℚ) : String :=
  let total : Int := qfdiv ms 60000 + tz
  let md : Int := total % 1440
  pad2 (md / 60) ++ ":" ++ pad2 (md % 60)

/-! ## The canonical per-day record (`config.GarminMetrics`)

Every metric field is a `JVal` (Python attribute holding `None` or a
value); the key attribute `date` is a day number.  `activities` is the
list of activity-entry dicts built by the extractor. -/

structure GarminMetrics where
  date : Int
  user_name : JVal := .null
  user_age : JVal := .null
  user_gender : JVal := .null
  sleep_score : JVal := .null
  sleep_length : JVal := .null
  sleep_start_time : JVal := .null
  sleep_end_time : JVal := .null
  sleep_deep : JVal := .null
  sleep_light : JVal := .null
  sleep_rem : JVal := .null
  sleep_awake : JVal := .null
  sleep_need : JVal := .null
  sleep_efficiency : JVal := .null
  overnight_respiration : JVal := .null
  overnight_pulse_ox : JVal := .null
  overnight_hrv : JVal := .null
  hrv_status : JVal := .null
  weight : JVal := .null
  bmi : JVal := .null
  body_fat : JVal := .null
  skeletal_muscle : JVal := .null
  bone_mass : JVal := .null
  body_water : JVal := .null
  visceral_fat : JVal := .null
  average_stress : JVal := .null
  rest_stress_duration : JVal := .null
  low_stress_duration : JVal := .null
  medium_stress_duration : JVal := .null
  high_stress_duration : JVal := .null
  blood_pressure_systolic : JVal := .null
  blood_pressure_diastolic : JVal := .null
  active_calories : JVal := .null
  resting_calories : JVal := .null
  total_calories : JVal := .null
  intensity_minutes : JVal := .null
  steps : JVal := .null
  floors_climbed : JVal := .null
  resting_heart_rate : JVal := .null
  vo2max_running : JVal := .null
  vo2max_cycling : JVal := .null
  seven_day_load : JVal := .null
  lactate_threshold_bpm : JVal := .null
  lactate_threshold_pace : JVal := .null
  training_status : JVal := .null
  body_battery_max : JVal := .null
  body_battery_min : JVal := .null
  activities : List (List (String × JVal)) := []

/-- `GarminMetrics(date=target_date)`: the date-only fallback record. -/
def dateOnlyMetrics (target : Int) : GarminMetrics := { date := target }

/-! ## Field extraction (`GarminClient.get_metrics`, post-fetch part)

The concurrent fetches are replaced by a `Bundle` of already-fetched
section payloads (`JVal.null` models a failed/absent fetch, exactly what
`safe_fetch` returns).  Code that can raise runs in `Except String`; the
function-level `try/except` becomes the `match` in `getMetrics`. -/

/-- One priority key of `GarminClient._find_training_load`: if the key is
present with a non-`None` value, `int(round(value))` (raising on a
non-number). -/
def checkLoadKey (fs : List (String × JVal)) (k : String) :
    Except String (Option Int) :=
  match JVal.lookupF fs k with
  | some .null => .ok none
  | some v => do
    let q ← v.pyToNum
    return some (pyRound q)
  | none => .ok none

/-- The four-key priority check performed on every dict node popped by
`_find_training_load`. -/
def checkLoadKeys (fs : List (String × JVal)) : Except String (Option Int) := do
  match ← checkLoadKey fs "dailyTrainingLoadAcute" with
  | some r => return some r
  | none =>
  match ← checkLoadKey fs "acuteLoad" with
  | some r => return some r
  | none =>
  match ← checkLoadKey fs "sevenDayLoad" with
  | some r => return some r
  | none => checkLoadKey fs "timeInZoneLoad"

mutual

/-- `GarminClient._find_training_load`: depth-first search of the payload
tree for the first of the four priority keys.  The source drives the
search with an explicit stack and `stack.pop()` (LIFO), so children are
explored right-to-left; only dict and list children are pushed. -/
def findTrainingLoad (v : JVal) : Except String (Option Int) :=
  match v with
  | .obj fs =>
    (do
      match ← checkLoadKeys fs with
      | some r => return some r
      | none => findTrainingLoadFields fs)
  | .arr xs => findTrainingLoadList xs
  | _ => .ok none

/-- Search the items of a list node, rightmost first (stack order). -/
def findTrainingLoadList (xs : List JVal) : Except String (Option Int) :=
  match xs with
  | [] => .ok none
  | x :: rest =>
    (do
      match ← findTrainingLoadList rest with
      | some r => return some r
      | none =>
        match x with
        | .obj _ => findTrainingLoad x
        | .arr _ => findTrainingLoad x
        | _ => return none)

/-- Search the values of a dict node, rightmost first (stack order). -/
def findTrainingLoadFields (fs : List (String × JVal)) :
    Except String (Option Int) :=
  match fs with
  | [] => .ok none
  | (_, x) :: rest =>
    (do
      match ← findTrainingLoadFields rest with
      | some r => return some r
      | none =>
        match x with
        | .obj _ => findTrainingLoad x
        | .arr _ => findTrainingLoad x
        | _ => return none)

end

/-- Body-battery block: `summary.get('bodyBatteryHighestValue')` /
`...LowestValue` when the (normalized) summary is truthy. -/
def bodyBatteryPart (summary : JVal) : Except String (JVal × JVal) :=
  if summary.truthy then do
    let bbMax ← summary.pyGet "bodyBatteryHighestValue"
    let bbMin ← summary.pyGet "bodyBatteryLowestValue"
    return (bbMax, bbMin)
  else pure (.null, .null)

/-- The `for entry in weight_list: if entry.get('date') == target_iso:
current_stats = entry; break` search. -/
def findDateEntry (xs : List JVal) (iso : String) : Except String (Option JVal) :=
  match xs with
  | [] => .ok none
  | e :: rest => do
    let d ← e.pyGet "date"
    if d.eqStr iso then return some e else findDateEntry rest iso

/-- Body-composition block of `get_metrics` (the `stats` payload):
produces weight, bodyFat, bmi, skeletalMuscle, boneMass, bodyWater,
visceralFat. -/
def statsPart (stats : JVal) (targetIso : String) :
    Except String (JVal × JVal × JVal × JVal × JVal × JVal × JVal) :=
  if ¬stats.truthy then .ok (.null, .null, .null, .null, .null, .null, .null)
  else do
    let current ←
      match stats with
      | .obj fs =>
        if fs.any (fun p => p.1 = "dateWeightList") then do
          let wl ← stats.pyGetD "dateWeightList" (.arr [])
          if ¬wl.truthy then pure JVal.null
          else
            match wl with
            | .arr xs => do
              match ← findDateEntry xs targetIso with
              | some e => pure e
              | none => pure (xs.getLastD .null)
            | _ => .error "TypeError: not iterable"
        else pure stats
      | .arr [] => pure JVal.null
      | .arr (x :: _) => pure x
      | _ => pure JVal.null
    if ¬current.truthy then pure (.null, .null, .null, .null, .null, .null, .null)
    else do
      let wv ← current.pyGet "weight"
      let weight ← if wv.truthy then do
          let q ← wv.pyToNum
          pure (JVal.num (q / 1000))
        else pure JVal.null
      let bodyFat ← current.pyGet "bodyFat"
      let bmi ← current.pyGet "bmi"
      let mv ← current.pyGet "muscleMass"
      let skeletalMuscle ← if mv.truthy then do
          let q ← mv.pyToNum
          pure (JVal.num (q / 1000))
        else pure JVal.null
      let bv ← current.pyGet "boneMass"
      let boneMass ← if bv.truthy then do
          let q ← bv.pyToNum
          pure (JVal.num (q / 1000))
        else pure JVal.null
      let bodyWater ← current.pyGet "bodyWater"
      let visceralFat ← current.pyGet "visceralFat"
      return (weight, bodyFat, bmi, skeletalMuscle, boneMass, bodyWater, visceralFat)

/-- Collect the blood-pressure readings list from its three alternate
payload shapes (`measurementSummaries[].measurements[]`, a flat list, or
`userDailyBloodPressureDTOList`).  Shapes whose readings end up
non-iterable or non-dict lead, in the source, either to a `TypeError`
caught by the block's own handler or to empty value lists — both of
which leave the fields `None`, so they are collapsed to `[]` here. -/
def bpReadings (bp : JVal) : List JVal :=
  match bp with
  | .obj fs =>
    if fs.any (fun p => p.1 = "measurementSummaries") then
      match (JVal.lookupF fs "measurementSummaries").getD (.arr []) with
      | .arr ss =>
        ss.foldl (fun acc si =>
          match si with
          | .obj g =>
            if g.any (fun p => p.1 = "measurements") then
              match JVal.lookupF g "measurements" with
              | some (.arr b) => acc ++ b
              | _ => acc
            else acc
          | _ => acc) []
      | _ => []
    else
      match JVal.lookupF fs "userDailyBloodPressureDTOList" with
      | some (.arr xs) => xs
      | _ => []
  | .arr xs => xs
  | _ => []

/-- Truthy readings of one component (`[r['systolic'] for r in readings
if isinstance(r, dict) and r.get('systolic')]`). -/
def bpComponent (readings : List JVal) (k : String) : List JVal :=
  readings.filterMap (fun r =>
    match r with
    | .obj fs =>
      let v := (JVal.lookupF fs k).getD .null
      if v.truthy then some v else none
    | _ => none)

/-- Blood-pressure block: averages the day's readings per component;
its `try/except` keeps whatever was assigned before an error
(the systolic mean is assigned before the diastolic mean is taken). -/
def bpPart (bp : JVal) : JVal × JVal :=
  if ¬bp.truthy then (.null, .null)
  else
    let readings := bpReadings bp
    let sysv := bpComponent readings "systolic"
    let diav := bpComponent readings "diastolic"
    match (if sysv.isEmpty then Except.ok JVal.null
           else (pyMeanJ sysv).map (fun m => JVal.num (pyRound m))) with
    | .error _ => (.null, .null)
    | .ok sysJ =>
      match (if diav.isEmpty then Except.ok JVal.null
             else (pyMeanJ diav).map (fun m => JVal.num (pyRound m))) with
      | .error _ => (sysJ, .null)
      | .ok diaJ => (sysJ, diaJ)

/-- Steps with the secondary fallback fetch: `summary.get('totalSteps')`,
then, when that is `None`, the first entry of the fallback daily-steps
payload (whose own failure is swallowed by `except: pass`). -/
def stepsPart (summary fallbackSteps : JVal) : Except String JVal := do
  let steps0 ← if summary.truthy then summary.pyGet "totalSteps" else pure JVal.null
  if steps0.isNull then
    match fallbackSteps with
    | .arr (x :: _) =>
      match x.pyGet "totalSteps" with
      | .ok v => return v
      | .error _ => return JVal.null
    | _ => return JVal.null
  else return steps0

/-- The twelve sleep-sourced fields of the record. -/
structure SleepPart where
  score : JVal := .null
  length : JVal := .null
  startTime : JVal := .null
  endTime : JVal := .null
  deep : JVal := .null
  light : JVal := .null
  rem : JVal := .null
  awake : JVal := .null
  need : JVal := .null
  efficiency : JVal := .null
  respiration : JVal := .null
  pulseOx : JVal := .null

/-- Sleep block of `get_metrics` (lines 355–391 of
`src/garmin_client.py`), on the already-normalized sleep payload. -/
def sleepPart (sleepData : JVal) (tz : Int) : Except String SleepPart :=
  if ¬sleepData.truthy then .ok {}
  else do
    let dto0 ← sleepData.pyGet "dailySleepDTO"
    let dto := if ¬dto0.truthy then sleepData else dto0
    if ¬dto.truthy then .ok {}
    else do
      let s1 ← dto.pyGetD "sleepScores" (.obj [])
      let s2 ← s1.pyGetD "overall" (.obj [])
      let score ← s2.pyGet "value"
      let needObj ← dto.pyGet "sleepNeed"
      let need ←
        match needObj with
        | .obj _ => needObj.pyGet "actual"
        | _ => pure needObj
      let respiration ← dto.pyGet "averageRespirationValue"
      let pulseOx ← dto.pyGet "averageSpO2Value"
      let t ← dto.pyGet "sleepTimeSeconds"
      let length ← if t.truthy then do
          let q ← t.pyToNum
          pure (JVal.num (pyRound (q / 60)))
        else pure JVal.null
      let startTs ← dto.pyGet "sleepStartTimestampLocal"
      let endTs ← dto.pyGet "sleepEndTimestampLocal"
      let startTime ← if startTs.truthy then do
          let q ← startTs.pyToNum
          pure (JVal.str (epochMillisToHHMM tz q))
        else pure JVal.null
      let endTime ← if endTs.truthy then do
          let q ← endTs.pyToNum
          pure (JVal.str (epochMillisToHHMM tz q))
        else pure JVal.null
      let dv ← dto.pyGet "deepSleepSeconds"
      let deepQ ← (dv.orElse (.num 0)).pyToNum
      let lv ← dto.pyGet "lightSleepSeconds"
      let lightQ ← (lv.orElse (.num 0)).pyToNum
      let rv ← dto.pyGet "remSleepSeconds"
      let remQ ← (rv.orElse (.num 0)).pyToNum
      let av ← dto.pyGet "awakeSleepSeconds"
      let awakeQ ← (av.orElse (.num 0)).pyToNum
      let efficiency ← if t.truthy then do
          let tq ← t.pyToNum
          if 0 < tq then do
            let av2 ← dto.pyGet "awakeSleepSeconds"
            let aq ← (av2.orElse (.num 0)).pyToNum
            pure (JVal.num (pyRound ((tq - aq) / tq * 100)))
          else pure JVal.null
        else pure JVal.null
      return { score, length, startTime, endTime,
               deep := .num (deepQ / 60), light := .num (lightQ / 60),
               rem := .num (remQ / 60), awake := .num (awakeQ / 60),
               need, efficiency, respiration, pulseOx }

/-- HRV block: `hrv_payload['hrvSummary']` when present. -/
def hrvPart (hrv : JVal) : Except String (JVal × JVal) :=
  if ¬hrv.truthy then .ok (.null, .null)
  else do
    let hk ← hrv.pyHasKey "hrvSummary"
    if hk then do
      let hs ← hrv.pyIndex "hrvSummary"
      let a ← hs.pyGet "lastNightAvg"
      let b ← hs.pyGet "status"
      return (a, b)
    else return (.null, .null)

/-- The summary-sourced fields (calories, intensity minutes, resting HR,
stress, floors). -/
structure SummaryPart where
  activeCal : JVal := .null
  restingCal : JVal := .null
  intensity : JVal := .null
  restingHr : JVal := .null
  avgStress : JVal := .null
  restDur : JVal := .null
  lowDur : JVal := .null
  medDur : JVal := .null
  highDur : JVal := .null
  floors : JVal := .null

/-- One stress-duration field: `x = summary.get(k)` then
`if x is not None: int(round(x / 60))`. -/
def stressDur (summary : JVal) (k : String) : Except String JVal := do
  let v ← summary.pyGet k
  if v.isNull then return JVal.null
  else do
    let q ← v.pyToNum
    return JVal.num (pyRound (q / 60))

/-- Daily-summary block of `get_metrics` (lines 479–514 of
`src/garmin_client.py`).  (`float` parsing of numeric strings for the
floors field is not modelled; the payload field is numeric.) -/
def summaryPart (summary : JVal) : Except String SummaryPart :=
  if ¬summary.truthy then .ok {}
  else do
    let activeCal ← summary.pyGet "activeKilocalories"
    let restingCal ← summary.pyGet "bmrKilocalories"
    let m ← summary.pyGetD "moderateIntensityMinutes" (.num 0)
    let mq ← (m.orElse (.num 0)).pyToNum
    let v ← summary.pyGetD "vigorousIntensityMinutes" (.num 0)
    let vq ← (v.orElse (.num 0)).pyToNum
    let restingHr ← summary.pyGet "restingHeartRate"
    let avgStress ← summary.pyGet "averageStressLevel"
    let restDur ← stressDur summary "restStressDuration"
    let lowDur ← stressDur summary "lowStressDuration"
    let medDur ← stressDur summary "mediumStressDuration"
    let highDur ← stressDur summary "highStressDuration"
    let f1 ← summary.pyGet "floorsAscended"
    let f2 ← summary.pyGet "floorsClimbed"
    let raw := f1.orElse f2
    let floors :=
      if raw.isNull then JVal.null
      else
        match raw with
        | .num q => JVal.num (pyRound q)
        | _ => raw
    return { activeCal, restingCal, intensity := .num (mq + 2 * vq),
             restingHr, avgStress, restDur, lowDur, medDur, highDur, floors }

/-- Lactate-threshold block, lines 522–546 of `src/garmin_client.py`:
the "latest value" payload first; the ranged payloads only when the
direct value is falsy, taking the LAST entry of the list; the ×10
speed correction on the fallback path when the value is `< 1.0`.
Returns the Python variables `(lactate_bpm, lactate_pace)` before the
training-status fallback.  (`int()` parsing of numeric strings in the
fallback is not modelled; the payload field is numeric.) -/
def lactPart (lacDirect rangeHr rangeSpeed : JVal) :
    Except String (JVal × JVal) := do
  let (bpm1, pace1) ←
    if lacDirect.truthy then do
      let hk ← lacDirect.pyHasKey "heartRate"
      let bpmA ← if hk then lacDirect.pyIndex "heartRate" else pure JVal.null
      let sk ← lacDirect.pyHasKey "speed"
      let paceA ← if sk then do
          let sp ← lacDirect.pyIndex "speed"
          let ps ← calculatePace sp
          pure (JVal.str ps)
        else pure JVal.null
      pure (bpmA, paceA)
    else pure (JVal.null, JVal.null)
  let bpm2 :=
    if bpm1.truthy then bpm1
    else
      match rangeHr with
      | .arr (x :: xs) =>
        match (x :: xs).getLastD .null with
        | .obj fs =>
          if fs.any (fun p => p.1 = "value") then
            match (JVal.lookupF fs "value").getD .null with
            | .num q => JVal.num (pyInt q)
            | _ => bpm1
          else bpm1
        | _ => bpm1
      | _ => bpm1
  let pace2 :=
    if pace1.truthy then pace1
    else
      match rangeSpeed with
      | .arr (x :: xs) =>
        match (x :: xs).getLastD .null with
        | .obj fs =>
          if fs.any (fun p => p.1 = "value") then
            match (JVal.lookupF fs "value").getD .null with
            | .num q =>
              if 0 < q then
                let q2 := if q < 1 then q * 10 else q
                match calculatePace (.num q2) with
                | .ok s => JVal.str s
                | .error _ => pace1
              else pace1
            | _ => pace1
          else pace1
        | _ => pace1
      | _ => pace1
  return (bpm2, pace2)

/-- Training-status block, lines 548–562: VO2max values, the
training-status phrase (first device's entry), and the final
lactate-threshold-HR fallback from `mostRecentTrainingStatus`. -/
def trainingPart (ts : JVal) (bpm0 : JVal) :
    Except String (JVal × JVal × JVal × JVal) :=
  if ¬ts.truthy then .ok (.null, .null, .null, bpm0)
  else do
    let mrVo2 ← ts.pyGetD "mostRecentVO2Max" (.obj [])
    let g ← mrVo2.pyGet "generic"
    let vo2Run ← if g.truthy then g.pyGet "vo2MaxValue" else pure JVal.null
    let c ← mrVo2.pyGet "cycling"
    let vo2Cyc ← if c.truthy then c.pyGet "vo2MaxValue" else pure JVal.null
    let mrTs ← ts.pyGetD "mostRecentTrainingStatus" (.obj [])
    let tsData ← mrTs.pyGetD "latestTrainingStatusData" (.obj [])
    let phrase ←
      if tsData.truthy then
        match tsData with
        | .obj ((_, dev) :: _) => dev.pyGet "trainingStatusFeedbackPhrase"
        | .obj [] => pure JVal.null
        | _ => .error "AttributeError: values"
      else pure JVal.null
    let bpm ←
      if ¬bpm0.truthy then do
        let mrTs2 ← ts.pyGetD "mostRecentTrainingStatus" (.obj [])
        if mrTs2.truthy then do
          let hk ← mrTs2.pyHasKey "lactateThresholdHeartRate"
          if hk then mrTs2.pyIndex "lactateThresholdHeartRate" else pure bpm0
        else pure bpm0
      else pure bpm0
    return (vo2Run, vo2Cyc, phrase, bpm)

/-- Seven-day training load, lines 564–570: DFS of the modern payload,
then the standard one, then the summary. -/
def sevenDayLoadPart (modern tsStd summary : JVal) : Except String JVal := do
  let l1 ← if modern.truthy then findTrainingLoad modern else pure none
  let l2 ← if l1.isNone ∧ tsStd.truthy then findTrainingLoad tsStd else pure l1
  let l3 ← if l2.isNone ∧ summary.truthy then findTrainingLoad summary else pure l2
  return match l3 with
  | some n => JVal.num n
  | none => JVal.null

/-- HR-zone minutes for one activity.  The source's `try` around the
zone loop keeps the zones assigned before an error, so the fold returns
the accumulated five values when it hits a malformed entry.  (Zone
numbers are modelled as the integers 1–5 the API returns.) -/
def zonesLoop (zs : List JVal) (z1 z2 z3 z4 z5 : ℚ) : ℚ × ℚ × ℚ × ℚ × ℚ :=
  match zs with
  | [] => (z1, z2, z3, z4, z5)
  | z :: rest =>
    match z with
    | .obj g =>
      let zn := (JVal.lookupF g "zoneNumber").getD .null
      let zsecs := (JVal.lookupF g "secsInZone").getD (.num 0)
      (match zn with
      | .null => zonesLoop rest z1 z2 z3 z4 z5
      | .num n =>
        if n = 0 then zonesLoop rest z1 z2 z3 z4 z5
        else if 1 ≤ n ∧ n ≤ 5 then
          match zsecs with
          | .num sq =>
            let m := pyRound2 (sq / 60)
            if n = 1 then zonesLoop rest m z2 z3 z4 z5
            else if n = 2 then zonesLoop rest z1 m z3 z4 z5
            else if n = 3 then zonesLoop rest z1 z2 m z4 z5
            else if n = 4 then zonesLoop rest z1 z2 z3 m z5
            else if n = 5 then zonesLoop rest z1 z2 z3 z4 m
            else zonesLoop rest z1 z2 z3 z4 z5
          | _ => (z1, z2, z3, z4, z5)
        else zonesLoop rest z1 z2 z3 z4 z5
      | _ => (z1, z2, z3, z4, z5))
    | _ => zonesLoop rest z1 z2 z3 z4 z5

/-- The five-entry HR-zones dict for one activity (preset to `0`). -/
def processZones (hz : JVal) : List (String × JVal) :=
  let (z1, z2, z3, z4, z5) :=
    match hz with
    | .arr zs => if hz.truthy then zonesLoop zs 0 0 0 0 0 else (0, 0, 0, 0, 0)
    | _ => (0, 0, 0, 0, 0)
  [("HR Zone 1 (min)", .num z1), ("HR Zone 2 (min)", .num z2),
   ("HR Zone 3 (min)", .num z3), ("HR Zone 4 (min)", .num z4),
   ("HR Zone 5 (min)", .num z5)]

/-- `int(v) if v else ""`: the cell pattern used for HR / calories /
elevation / power in an activity entry. -/
def intCell (v : JVal) : Except String JVal :=
  if v.truthy then (v.pyToNum).map (fun q => JVal.num (pyInt q))
  else .ok (JVal.str "")

/-- The body of the per-activity `try`: builds one activity-entry dict;
an error here is caught by the loop's handler and skips the activity. -/
def activityEntry (fs : List (String × JVal)) (atype : JVal)
    (hrZones : JVal → JVal) (targetIso : String) :
    Except String (List (String × JVal)) := do
  let actId := (JVal.lookupF fs "activityId").getD .null
  let actName := (JVal.lookupF fs "activityName").getD .null
  let startLocal := (JVal.lookupF fs "startTimeLocal").getD .null
  let timeStr ←
    if startLocal.truthy then
      match startLocal with
      | .str s =>
        pure (if s.data.contains ' ' then
          String.mk (((splitChars ' ' s.data).getD 1 []).take 5) else "")
      | _ => .error "AttributeError: split"
    else pure ""
  let distQ ← (((JVal.lookupF fs "distance").getD .null).orElse (.num 0)).pyToNum
  let distKm := distQ / 1000
  let durQ ← (((JVal.lookupF fs "duration").getD .null).orElse (.num 0)).pyToNum
  let durMin := durQ / 60
  let paceStr :=
    if 0 < distKm ∧ 0 < durMin then
      let dec := durMin / distKm
      let pmin := pyInt dec
      toString pmin ++ ":" ++ pad2 (pyInt ((dec - pmin) * 60))
    else ""
  let avgHrC ← intCell ((JVal.lookupF fs "averageHR").getD .null)
  let maxHrC ← intCell ((JVal.lookupF fs "maxHR").getD .null)
  let calC ← intCell ((JVal.lookupF fs "calories").getD .null)
  let gainC ← intCell ((JVal.lookupF fs "elevationGain").getD .null)
  let lossC ← intCell ((JVal.lookupF fs "elevationLoss").getD .null)
  let aerobicTe := (JVal.lookupF fs "aerobicTrainingEffect").getD .null
  let anaerobicTe := (JVal.lookupF fs "anaerobicTrainingEffect").getD .null
  let powerC ← intCell (((JVal.lookupF fs "avgPower").getD .null).orElse
    ((JVal.lookupF fs "averageRunningPower").getD .null))
  let trainingEffect := (JVal.lookupF fs "trainingEffectLabel").getD .null
  let gapStr ← calculatePace ((JVal.lookupF fs "avgGradeAdjustedSpeed").getD .null)
  let typeKey ← atype.pyGetD "typeKey" (.str "Unknown")
  let zones := processZones (hrZones actId)
  return [("Activity ID", actId),
          ("Date (YYYY-MM-DD)", .str targetIso),
          ("Start Time (HH:MM)", .str timeStr),
          ("Activity Type", typeKey),
          ("Activity Name", actName),
          ("Distance (km)", .num (if distKm ≠ 0 then pyRound2 distKm else 0)),
          ("Duration (min)", .num (if durMin ≠ 0 then pyRound1 durMin else 0)),
          ("Avg Pace (min/km)", .str paceStr),
          ("Avg HR (bpm)", avgHrC),
          ("Max HR (bpm)", maxHrC),
          ("Total Calories (kcal)", calC),
          ("Elevation Gain (m)", gainC),
          ("Total Ascent (m)", gainC),
          ("Total Descent (m)", lossC),
          ("Average Grade Adjusted Pace (min/km)", .str gapStr),
          ("Aerobic TE (0-5.0)", aerobicTe),
          ("Anaerobic TE (0-5.0)", anaerobicTe),
          ("Avg Power (Watts)", powerC),
          ("Garmin Training Effect Label",
            if trainingEffect.truthy then trainingEffect else .str "")]
         ++ zones

/-- The activity loop: non-dict entries and entries whose `try` body
raises are skipped (`continue`). -/
def processActivitiesList (xs : List JVal) (hrZones : JVal → JVal)
    (targetIso : String) : List (List (String × JVal)) :=
  xs.filterMap (fun a =>
    match a with
    | .obj fs =>
      let atype := (JVal.lookupF fs "activityType").getD (.obj [])
      match activityEntry fs atype hrZones targetIso with
      | .ok e => some e
      | .error _ => none
    | _ => none)

/-- Activities block: iterating a truthy non-list payload either raises
(`TypeError` on a number, reaching the function-level handler) or visits
only non-dict items (dict keys / string characters), which the loop
skips. -/
def activitiesPart (activities : JVal) (hrZones : JVal → JVal)
    (targetIso : String) : Except String (List (List (String × JVal))) :=
  if ¬activities.truthy then .ok []
  else
    match activities with
    | .arr xs => .ok (processActivitiesList xs hrZones targetIso)
    | .num _ => .error "TypeError: not iterable"
    | _ => .ok []

/-- The per-day payload bundle: what the concurrent section fetches of
`get_metrics` returned (`null` = the fetch failed or returned `None`),
plus the per-activity HR-zones responses and the profile info fetched at
authentication time. -/
structure Bundle where
  summary : JVal := .null
  stats : JVal := .null
  sleep : JVal := .null
  hrv : JVal := .null
  bp : JVal := .null
  activities : JVal := .null
  trainingStd : JVal := .null
  trainingModern : JVal := .null
  lactateDirect : JVal := .null
  lactateRangeHr : JVal := .null
  lactateRangeSpeed : JVal := .null
  fallbackSteps : JVal := .null
  hrZones : JVal → JVal := fun _ => .null
  userName : JVal := .null
  userAge : JVal := .null
  userGender : JVal := .null

/-- The body of `GarminClient.get_metrics` after the fetches, i.e. the
normalization/extraction pipeline (lines 250–627 of
`src/garmin_client.py`), in source order. -/
def extractBody (b : Bundle) (target tz : Int) : Except String GarminMetrics := do
  let targetIso := dateToISO target
  let summary := JVal.normalizeSection b.summary
  let sleepData := JVal.normalizeSection b.sleep
  let tsStd := JVal.normalizeSection b.trainingStd
  let (bbMax, bbMin) ← bodyBatteryPart summary
  let (weight, bodyFat, bmi, skeletalMuscle, boneMass, bodyWater, visceralFat) ←
    statsPart b.stats targetIso
  let (bpSys, bpDia) := bpPart b.bp
  let steps ← stepsPart summary b.fallbackSteps
  let sl ← sleepPart sleepData tz
  let (hrvVal, hrvStatus) ← hrvPart b.hrv
  let acts ← activitiesPart b.activities b.hrZones targetIso
  let sm ← summaryPart summary
  let (bpm0, pace) ← lactPart b.lactateDirect b.lactateRangeHr b.lactateRangeSpeed
  let (vo2Run, vo2Cyc, phrase, bpm) ← trainingPart tsStd bpm0
  let load ← sevenDayLoadPart b.trainingModern tsStd summary
  return { date := target,
           user_name := b.userName, user_age := b.userAge,
           user_gender := b.userGender,
           sleep_score := sl.score, sleep_need := sl.need,
           sleep_efficiency := sl.efficiency, sleep_length := sl.length,
           sleep_start_time := sl.startTime, sleep_end_time := sl.endTime,
           sleep_deep := sl.deep, sleep_light := sl.light,
           sleep_rem := sl.rem, sleep_awake := sl.awake,
           overnight_respiration := sl.respiration,
           overnight_pulse_ox := sl.pulseOx,
           weight, bmi, body_fat := bodyFat,
           skeletal_muscle := skeletalMuscle, bone_mass := boneMass,
           body_water := bodyWater, visceral_fat := visceralFat,
           blood_pressure_systolic := bpSys, blood_pressure_diastolic := bpDia,
           resting_heart_rate := sm.restingHr, average_stress := sm.avgStress,
           rest_stress_duration := sm.restDur, low_stress_duration := sm.lowDur,
           medium_stress_duration := sm.medDur,
           high_stress_duration := sm.highDur,
           body_battery_max := bbMax, body_battery_min := bbMin,
           overnight_hrv := hrvVal, hrv_status := hrvStatus,
           vo2max_running := vo2Run, vo2max_cycling := vo2Cyc,
           seven_day_load := load, lactate_threshold_bpm := bpm,
           lactate_threshold_pace := pace, training_status := phrase,
           active_calories := sm.activeCal, resting_calories := sm.restingCal,
           intensity_minutes := sm.intensity, steps,
           floors_climbed := sm.floors, activities := acts }

/-- `GarminClient.get_metrics`: the function-level `try/except` returns
the date-only record on any uncaught extraction exception. -/
def getMetrics (b : Bundle) (target tz : Int) : GarminMetrics :=
  match extractBody b target tz with
  | .ok m => m
  | .error _ => dateOnlyMetrics target

/-! ## Header tables (`src/config.py`) -/

/-- `config.HEADERS` (the main Daily Summaries tab). -/
def HEADERS : List String :=
  ["Date", "Sleep Score", "Sleep Length (mins)", "Garmin Overnight HRV (ms)",
   "Garmin HRV Status", "Overnight Resting Heart Rate (bpm)",
   "Body Battery Max", "Body Battery Min", "Training Status",
   "VO2 Max Running", "Steps", "Active Calories", "Resting Calories",
   "Total Calories (kcal)", "Weight (kg)"]

/-- `config.STRESS_HEADERS`. -/
def STRESS_HEADERS : List String :=
  ["Date", "Average Stress", "Rest Stress Duration (min)",
   "Low Stress Duration (min)", "Medium Stress Duration (min)",
   "High Stress Duration (min)", "Today's Minimum Body Battery",
   "Today's Maximum Body Battery", "Systolic Blood Pressure (mmHg)",
   "Diastolic Blood Pressure (mmHg)"]

/-- `config.ACTIVITY_HEADERS`. -/
def ACTIVITY_HEADERS : List String :=
  ["Activity ID", "Date (YYYY-MM-DD)", "Start Time (HH:MM)", "Activity Type",
   "Distance (km)", "Duration (min)", "Avg Pace (min/km)",
   "Average Grade Adjusted Pace (min/km)", "Avg HR (bpm)", "Max HR (bpm)",
   "Total Ascent (m)", "Total Descent (m)", "Aerobic TE (0-5.0)",
   "Anaerobic TE (0-5.0)", "Avg Power (Watts)",
   "Garmin Training Effect Label", "HR Zone 1 (min)", "HR Zone 2 (min)",
   "HR Zone 3 (min)", "HR Zone 4 (min)", "HR Zone 5 (min)"]

/-- Modelled from the spec: `sheets_client.py` imports `ACTIVITIES_HEADERS`
from `config`, but `src/config.py` does not define that name (only
`ACTIVITY_HEADERS`); per spec §4.4 the activities tab's columns are the
activity-entry headers. -/
def ACTIVITIES_HEADERS : List String := ACTIVITY_HEADERS

/-- `config.HEADER_TO_ATTRIBUTE_MAP` as a function from header to
attribute name (`none` = header not in the map). -/
def headerToAttribute (h : String) : Option String :=
  match h with
  | "Date" => some "date"
  | "User Name" => some "user_name"
  | "User Age" => some "user_age"
  | "User Gender" => some "user_gender"
  | "Sleep Score" => some "sleep_score"
  | "Sleep Length (mins)" => some "sleep_length"
  | "Sleep Length (min)" => some "sleep_length"
  | "Sleep Need (mins)" => some "sleep_need"
  | "Sleep Need (min)" => some "sleep_need"
  | "Overnight Breathing Rate (breaths per minute)" => some "overnight_respiration"
  | "Sleep Start Time" => some "sleep_start_time"
  | "Sleep End Time" => some "sleep_end_time"
  | "Deep Sleep (min)" => some "sleep_deep"
  | "Light Sleep (min)" => some "sleep_light"
  | "REM Sleep (min)" => some "sleep_rem"
  | "Awake Time (min)" => some "sleep_awake"
  | "Garmin Overnight HRV (ms)" => some "overnight_hrv"
  | "Overnight HRV (ms)" => some "overnight_hrv"
  | "Garmin HRV Status" => some "hrv_status"
  | "Overnight Resting Heart Rate (bpm)" => some "resting_heart_rate"
  | "Overnight Resting HR (bpm)" => some "resting_heart_rate"
  | "Weight (kg)" => some "weight"
  | "BMI" => some "bmi"
  | "Body Fat (%)" => some "body_fat"
  | "Skeletal Muscle Mass (kg)" => some "skeletal_muscle"
  | "Bone Mass (kg)" => some "bone_mass"
  | "Body Water (%)" => some "body_water"
  | "Visceral Fat Rating" => some "visceral_fat"
  | "Average Stress" => some "average_stress"
  | "Avg Stress Score" => some "average_stress"
  | "Rest Stress Duration (min)" => some "rest_stress_duration"
  | "Low Stress Duration (min)" => some "low_stress_duration"
  | "Medium Stress Duration (min)" => some "medium_stress_duration"
  | "High Stress Duration (min)" => some "high_stress_duration"
  | "Today's Minimum Body Battery" => some "body_battery_min"
  | "Today's Maximum Body Battery" => some "body_battery_max"
  | "Daily Min Body Battery (0-100)" => some "body_battery_min"
  | "Daily Max Body Battery (0-100)" => some "body_battery_max"
  | "Systolic (mmHg)" => some "blood_pressure_systolic"
  | "Diastolic (mmHg)" => some "blood_pressure_diastolic"
  | "Systolic Blood Pressure (mmHg)" => some "blood_pressure_systolic"
  | "Diastolic Blood Pressure (mmHg)" => some "blood_pressure_diastolic"
  | "Active Calories" => some "active_calories"
  | "Resting Calories" => some "resting_calories"
  | "Total Calories (kcal)" => some "total_calories"
  | "Intensity Minutes" => some "intensity_minutes"
  | "Daily Intensity Minutes" => some "intensity_minutes"
  | "Steps" => some "steps"
  | "Daily Steps" => some "steps"
  | "Floors Climbed" => some "floors_climbed"
  | "Daily Floors Climbed" => some "floors_climbed"
  | "VO2 Max (ml/kg/min)" => some "vo2max_running"
  | "Lactate Threshold Heart Rate (bpm)" => some "lactate_threshold_bpm"
  | "Lactate Threshold Pace (min / km)" => some "lactate_threshold_pace"
  | "Lactate Threshold Pace (min/km)" => some "lactate_threshold_pace"
  | "Garmin Training Load (7-Day Sum)" => some "seven_day_load"
  | "Garmin Training Load (7 Day Sum)" => some "seven_day_load"
  | "Body Battery Max" => some "body_battery_max"
  | "Body Battery Min" => some "body_battery_min"
  | "Training Status" => some "training_status"
  | "Garmin Training Status" => some "training_status"
  | "VO2 Max Running" => some "vo2max_running"
  | _ => none

/-- `str(v)` of a metric value.  Exact Python float/list/dict repr is not
needed by any property below (only the `None → ""` case is), so numbers
render via the rational printer and containers via fixed markers. -/
def pyStrJ : JVal → String
  | .null => "None"
  | .num q => toString q
  | .str s => s
  | .arr _ => "<list>"
  | .obj _ => "<dict>"

/-- `str(val) if val is not None else ""`: the cell rendering applied to
every exported attribute value. -/
def renderJ (v : JVal) : String :=
  if v.isNull then "" else pyStrJ v

/-- `getattr(item, attr, "")` for the attribute names occurring in
`HEADER_TO_ATTRIBUTE_MAP`, already rendered to the exported cell string
(the `date` attribute renders as its isoformat). -/
def cellOfAttr (m : GarminMetrics) (attr : String) : String :=
  match attr with
  | "date" => dateToISO m.date
  | "user_name" => renderJ m.user_name
  | "user_age" => renderJ m.user_age
  | "user_gender" => renderJ m.user_gender
  | "sleep_score" => renderJ m.sleep_score
  | "sleep_length" => renderJ m.sleep_length
  | "sleep_start_time" => renderJ m.sleep_start_time
  | "sleep_end_time" => renderJ m.sleep_end_time
  | "sleep_deep" => renderJ m.sleep_deep
  | "sleep_light" => renderJ m.sleep_light
  | "sleep_rem" => renderJ m.sleep_rem
  | "sleep_awake" => renderJ m.sleep_awake
  | "sleep_need" => renderJ m.sleep_need
  | "sleep_efficiency" => renderJ m.sleep_efficiency
  | "overnight_respiration" => renderJ m.overnight_respiration
  | "overnight_pulse_ox" => renderJ m.overnight_pulse_ox
  | "overnight_hrv" => renderJ m.overnight_hrv
  | "hrv_status" => renderJ m.hrv_status
  | "weight" => renderJ m.weight
  | "bmi" => renderJ m.bmi
  | "body_fat" => renderJ m.body_fat
  | "skeletal_muscle" => renderJ m.skeletal_muscle
  | "bone_mass" => renderJ m.bone_mass
  | "body_water" => renderJ m.body_water
  | "visceral_fat" => renderJ m.visceral_fat
  | "average_stress" => renderJ m.average_stress
  | "rest_stress_duration" => renderJ m.rest_stress_duration
  | "low_stress_duration" => renderJ m.low_stress_duration
  | "medium_stress_duration" => renderJ m.medium_stress_duration
  | "high_stress_duration" => renderJ m.high_stress_duration
  | "blood_pressure_systolic" => renderJ m.blood_pressure_systolic
  | "blood_pressure_diastolic" => renderJ m.blood_pressure_diastolic
  | "active_calories" => renderJ m.active_calories
  | "resting_calories" => renderJ m.resting_calories
  | "total_calories" => renderJ m.total_calories
  | "intensity_minutes" => renderJ m.intensity_minutes
  | "steps" => renderJ m.steps
  | "floors_climbed" => renderJ m.floors_climbed
  | "resting_heart_rate" => renderJ m.resting_heart_rate
  | "vo2max_running" => renderJ m.vo2max_running
  | "vo2max_cycling" => renderJ m.vo2max_cycling
  | "seven_day_load" => renderJ m.seven_day_load
  | "lactate_threshold_bpm" => renderJ m.lactate_threshold_bpm
  | "lactate_threshold_pace" => renderJ m.lactate_threshold_pace
  | "training_status" => renderJ m.training_status
  | "body_battery_max" => renderJ m.body_battery_max
  | "body_battery_min" => renderJ m.body_battery_min
  | _ => ""

/-- One exported cell for a header (`attr = MAP.get(h)`;
`getattr(item, attr, "") if attr else ""`; `str` / `""` rendering). -/
def metricCell (m : GarminMetrics) (h : String) : String :=
  match headerToAttribute h with
  | some attr => cellOfAttr m attr
  | none => ""

/-- The exported row of a metric object for a header list. -/
def metricRow (headers : List String) (m : GarminMetrics) : List String :=
  headers.map (metricCell m)

/-! ## Upsert/merge engine (`GoogleSheetsClient._update_sheet_generic`)

A worksheet is a list of rows of cell strings; row 0 is the header row.
Raw (`is_metric_object=False`) data rows are modelled as
already-stringified cell lists: every call site builds them with an ISO
date string in column 0, and the engine's `str(x) if x is not None else
""` conversion is deterministic, applied identically on every run. -/

/-- A worksheet row. -/
abbrev Row := List String

/-- Writing a list of values into a row starting at column A
(`range 'A<i>'` in a `batch_update` entry, or `update('A1', ...)`):
cells beyond the written width keep their old values. -/
def writeRow (old new : Row) : Row := new ++ old.drop new.length

/-- `worksheet.update('A1', [headers])`. -/
def setHeader (headers : List String) (sheet : List Row) : List Row :=
  match sheet with
  | [] => [headers]
  | h :: t => writeRow h headers :: t

/-- Python dict insertion `m[k] = v`: overwrite in place or append. -/
def assocSet {α : Type} (m : List (String × α)) (k : String) (v : α) :
    List (String × α) :=
  if m.any (fun p => p.1 = k) then
    m.map (fun p => if p.1 = k then (k, v) else p)
  else m ++ [(k, v)]

/-- Python dict lookup. -/
def assocFind {α : Type} : List (String × α) → String → Option α
  | [], _ => none
  | (k2, v) :: rest, k => if k2 = k then some v else assocFind rest k

/-- The two shapes of `data_rows` accepted by `_update_sheet_generic`. -/
inductive DataRows where
  | metrics (l : List GarminMetrics)
  | raw (l : List Row)

/-- Step 3 of `_update_sheet_generic`: `new_data_map`, keyed by
`item.date.isoformat()` for metric objects and by `item[0]` for raw
rows, later items overwriting earlier ones with the same key. -/
def buildNdm (headers : List String) : DataRows → List (String × Row)
  | .metrics l =>
    l.foldl (fun nd m => assocSet nd (dateToISO m.date) (metricRow headers m)) []
  | .raw l => l.foldl (fun nd r => assocSet nd (r.headD "") r) []

/-- `existing_map = {row[0]: (i + 2, row) for i, row in
enumerate(existing_values[1:])}`, keeping only the 1-based sheet row
number. -/
def buildEmGo (i : Nat) (m : List (String × Nat)) : List Row → List (String × Nat)
  | [] => m
  | r :: rest => buildEmGo (i + 1) (assocSet m (r.headD "") (i + 2)) rest

/-- The existing-row map of a sheet's data rows. -/
def existingMap (rows : List Row) : List (String × Nat) := buildEmGo 0 [] rows

/-- The batched update list: the entries of `new_data_map` whose key
already exists, paired with the existing 1-based row number. -/
def genericUpserts (ndm : List (String × Row)) (em : List (String × Nat)) :
    List (Nat × Row) :=
  ndm.filterMap (fun p => (assocFind em p.1).map (fun idx => (idx, p.2)))

/-- The batched append list: the entries whose key does not exist. -/
def genericAppends (ndm : List (String × Row)) (em : List (String × Nat)) :
    List Row :=
  ndm.filterMap (fun p =>
    match assocFind em p.1 with
    | some _ => none
    | none => some p.2)

/-- `worksheet.batch_update(updates)`: write each update's row values at
its 1-based sheet row. -/
def applyUpdates (sheet : List Row) (us : List (Nat × Row)) : List Row :=
  us.foldl (fun s u => s.set (u.1 - 1) (writeRow (s.getD (u.1 - 1) []) u.2)) sheet

/-- The merge pass shared by both data shapes: read existing rows, split
into updates and appends, batch both.  An empty existing data row makes
the `row[0]` of the `existing_map` comprehension raise, which the
function-level handler catches with only the header written. -/
def mergeInto (ndm : List (String × Row)) (s1 : List Row) : List Row :=
  if (s1.drop 1).any (fun r => r.isEmpty) then s1
  else
    let em := existingMap (s1.drop 1)
    applyUpdates s1 (genericUpserts ndm em) ++ genericAppends ndm em

/-- `GoogleSheetsClient._update_sheet_generic` on the current sheet
state (`[]` for a freshly created worksheet).  A raw data row that is
empty makes `item[0]` raise while `new_data_map` is built, which the
function-level handler catches with only the header written. -/
def updateSheetGeneric (headers : List String) (data : DataRows)
    (sheet : List Row) : List Row :=
  let s1 := setHeader headers sheet
  match data with
  | .raw l =>
    if l.any (fun r => r.isEmpty) then s1
    else mergeInto (buildNdm headers data) s1
  | .metrics _ => mergeInto (buildNdm headers data) s1

/-- `GoogleSheetsClient.update_metrics`: the main Daily Summaries tab. -/
def updateMetricsTab (metrics : List GarminMetrics) (sheet : List Row) :
    List Row :=
  updateSheetGeneric HEADERS (.metrics metrics) sheet

/-- The row built for one metric by `GoogleSheetsClient.update_stress`
(already stringified, see above). -/
def stressRow (m : GarminMetrics) : Row :=
  [dateToISO m.date, renderJ m.average_stress, renderJ m.rest_stress_duration,
   renderJ m.low_stress_duration, renderJ m.medium_stress_duration,
   renderJ m.high_stress_duration, renderJ m.body_battery_max,
   renderJ m.body_battery_min]

/-- `GoogleSheetsClient.update_stress`. -/
def updateStressTab (metrics : List GarminMetrics) (sheet : List Row) :
    List Row :=
  updateSheetGeneric STRESS_HEADERS (.raw (metrics.map stressRow)) sheet

/-! ### Activities upsert (`_update_sheet_activities_custom`) -/

/-- The existing-ID map: `if row: existing_ids[row[0]] = i + 2` — empty
rows are skipped, not an error. -/
def buildActIdsGo (i : Nat) (m : List (String × Nat)) :
    List Row → List (String × Nat)
  | [] => m
  | r :: rest =>
    buildActIdsGo (i + 1)
      (if r.isEmpty then m else assocSet m (r.headD "") (i + 2)) rest

/-- `GoogleSheetsClient._update_sheet_activities_custom`: upsert keyed
by activity ID (column 0), iterating the incoming rows directly (no
dict dedup).  The header row is written only when the worksheet is
freshly created; an empty incoming row makes `new_row[0]` raise, which
the handler catches before any write. -/
def updateActivitiesCustom (rows : List Row) (sheet : List Row) : List Row :=
  let s1 := if sheet.isEmpty then [ACTIVITIES_HEADERS] else sheet
  if rows.any (fun r => r.isEmpty) then s1
  else
    let em := buildActIdsGo 0 [] (s1.drop 1)
    let us := rows.filterMap (fun r =>
      (assocFind em (r.headD "")).map (fun idx => (idx, r)))
    let aps := rows.filterMap (fun r =>
      match assocFind em (r.headD "") with
      | some _ => none
      | none => some r)
    applyUpdates s1 us ++ aps

/-! ### Drive CSV activities merge (`GoogleDriveClient.update_activities_csv`)

A CSV activities table is a list of rows keyed by their `Activity ID`
column, modelled as `(id, remaining columns)` pairs. -/

/-- `DataFrame.drop_duplicates(subset=['Activity ID'], keep='last')`:
keep a row exactly when no later row carries the same ID. -/
def keepLastByKey : List (String × Row) → List (String × Row)
  | [] => []
  | x :: xs =>
    if xs.any (fun y => y.1 = x.1) then keepLastByKey xs
    else x :: keepLastByKey xs

/-- The merge core of `update_activities_csv`: concatenate the existing
table with the new rows and deduplicate by activity ID keeping the last
occurrence.  (The subsequent date sort only permutes rows.) -/
def mergeActivitiesCsv (existing new : List (String × Row)) :
    List (String × Row) :=
  keepLastByKey (existing ++ new)

/-! ## Monthly aggregation (`main.aggregate_monthly_metrics`) -/

/-- `hh, mm = map(int, val.split(':'))` as minutes-since-midnight;
`none` models the `ValueError` that `continue`s to the next value. -/
def parseClock (s : String) : Option ℚ :=
  match splitChars ':' s.data with
  | [a, b] =>
    match charsToInt? a, charsToInt? b with
    | some hh, some mm => some ((hh : ℚ) * 60 + mm)
    | _, _ => none
  | _ => none

/-- `minutes_list` of `get_avg_time`: parse each truthy string value
containing a colon, shifting a start time before 12:00 by +24 h. -/
def collectMinutes (isStart : Bool) (vals : List JVal) : List ℚ :=
  vals.filterMap (fun v =>
    match v with
    | .str s =>
      if s ≠ "" ∧ s.data.contains ':' then
        (parseClock s).map (fun t =>
          if isStart ∧ t < 12 * 60 then t + 24 * 60 else t)
      else none
    | _ => none)

/-- The `HH:MM` formatting tail of `get_avg_time`, with the
`avg_mm == 60` carry and the `avg_hh >= 24` wrap. -/
def fmtAvgMinutes (avg : ℚ) : String :=
  let hh := qfdiv avg 60
  let mm := pyRound (qmod avg 60)
  let hh2 := if mm = 60 then hh + 1 else hh
  let mm2 := if mm = 60 then 0 else mm
  let hh3 := if 24 ≤ hh2 then hh2 - 24 else hh2
  pad2 hh3 ++ ":" ++ pad2 mm2

/-- `aggregate_monthly_metrics.get_avg_time` on the collected attribute
values: average the parsed (shifted) minutes, subtract 24 h once if the
mean reached it, format as `HH:MM`. -/
def getAvgTime (isStart : Bool) (vals : List JVal) : Option String :=
  let ml := collectMinutes isStart vals
  if ml.isEmpty then none
  else
    let avg := meanQ ml
    let avg2 := if 24 * 60 ≤ avg then avg - 24 * 60 else avg
    some (fmtAvgMinutes avg2)

/-- The spec's statement of circular time averaging (§4.3): convert,
shift pre-noon start times by +1440, average, normalize the mean back
into `[0, 1440)` (i.e. modulo 1440), format as `HH:MM`. -/
def specCircularAvgTime (isStart : Bool) (vals : List JVal) : Option String :=
  let ml := collectMinutes isStart vals
  if ml.isEmpty then none
  else some (fmtAvgMinutes (qmod (meanQ ml) (24 * 60)))

/-! ## Sync orchestration (`main.sync`) -/

/-- The day loop of `main.sync`: iterate the closed interval
`[current, endD]`, appending one fetched record per day. -/
def fetchLoop (fetch : Int → GarminMetrics) (cur endD : Int) :
    List GarminMetrics :=
  if h : cur ≤ endD then fetch cur :: fetchLoop fetch (cur + 1) endD
  else []
termination_by (endD + 1 - cur).toNat
decreasing_by
  omega

/-- Modelled from the spec: the PARTITIONING stage of §4.6 is absent
from this snapshot's `src/main.py` (its `sync` dispatches the whole
accumulated list); per the spec it splits the accumulated records into
the "historical" subset (dates strictly before today) and the "live"
subset (the rest, including today). -/
def partitionRecords (today : Int) (records : List GarminMetrics) :
    List GarminMetrics × List GarminMetrics :=
  (records.filter (fun r => decide (r.date < today)),
   records.filter (fun r => ¬ decide (r.date < today)))

/-- Modelled from the spec: dispatch to a historical-only destination
(stress) per §4.6 — the upsert engine invoked with the historical
subset only. -/
def dispatchStressHistorical (today : Int) (records : List GarminMetrics)
    (sheet : List Row) : List Row :=
  updateStressTab (partitionRecords today records).1 sheet

/-- Modelled from the spec: `GoogleSheetsClient.prune_old_data` is an
unimplemented stub (`pass`) in this snapshot; per §4.5, pruning keeps
the header row plus exactly the data rows whose parsed key date is on
or after `today - daysToKeep`, conservatively retaining rows whose date
fails to parse. -/
def pruneOldData (today daysToKeep : Int) (sheet : List Row) : List Row :=
  match sheet with
  | [] => []
  | h :: rows =>
    h :: rows.filter (fun r =>
      match parseISO (r.headD "") with
      | some d => decide (today - daysToKeep ≤ d)
      | none => true)

/-! ## Concrete payloads examined below -/

/-- A bundle whose sleep payload is a bare number: `sleep_data.get(...)`
raises outside every per-field guard. -/
def c9FailBundle : Bundle := { sleep := .num 5 }

/-- The spec's concrete sleep scenario: `sleepTimeSeconds=25200`,
`awakeSleepSeconds=600`, every other section absent. -/
def c5Bundle : Bundle :=
  { sleep := .obj [("dailySleepDTO", .obj
      [("sleepTimeSeconds", .num 25200), ("awakeSleepSeconds", .num 600)])] }

/-- A sleep section lacking the phase-seconds keys and a summary section
lacking the intensity-minutes keys. -/
def c3Bundle : Bundle :=
  { sleep := .obj [("dailySleepDTO", .obj [("sleepTimeSeconds", .num 25200)])],
    summary := .obj [("activeKilocalories", .num 100)] }

/-- A summary section carrying neither intensity-minutes key. -/
def c10Bundle : Bundle :=
  { summary := .obj [("activeKilocalories", .num 100)] }

/-! ## Merge-engine lemmas -/

/-- Row of a sheet at a 0-based index (`[]` out of bounds). -/
def rowAt (s : List Row) (n : Nat) : Row := s.getD n []

/-- The key column of a block of rows. -/
def heads (s : List Row) : List String := s.map (fun r => r.headD "")

theorem rowAt_set_self {s : List Row} {n : Nat} {v : Row} (h : n < s.length) :
    rowAt (s.set n v) n = v := by
  simp [rowAt, List.getD_eq_getElem?_getD, List.getElem?_set_eq_of_lt v h]

theorem rowAt_set_ne {s : List Row} {n m : Nat} {v : Row} (h : n ≠ m) :
    rowAt (s.set n v) m = rowAt s m := by
  simp [rowAt, List.getD_eq_getElem?_getD, List.getElem?_set_ne h]

theorem set_rowAt_self {s : List Row} {n : Nat} (h : n < s.length) :
    s.set n (rowAt s n) = s := by
  induction s generalizing n with
  | nil => simp at h
  | cons a t ih =>
    cases n with
    | zero => simp [rowAt, List.getD]
    | succ m =>
      simp only [List.set, List.cons.injEq, true_and]
      have : rowAt (a :: t) (m + 1) = rowAt t m := by
        simp [rowAt, List.getD_eq_getElem?_getD]
      rw [this]
      exact ih (by simpa using h)

theorem rowAt_cons_succ (a : Row) (t : List Row) (n : Nat) :
    rowAt (a :: t) (n + 1) = rowAt t n := by
  simp [rowAt, List.getD_eq_getElem?_getD]

theorem rowAt_append_left {A B : List Row} {n : Nat} (h : n < A.length) :
    rowAt (A ++ B) n = rowAt A n := by
  simp [rowAt, List.getD_eq_getElem?_getD, List.getElem?_append_left h]

theorem rowAt_append_right (A B : List Row) (j : Nat) :
    rowAt (A ++ B) (A.length + j) = rowAt B j := by
  induction A with
  | nil => simp [rowAt]
  | cons a t ih => simpa [rowAt_cons_succ, Nat.succ_add] using ih

theorem heads_getD {s : List Row} {n : Nat} (h : n < s.length) :
    (heads s).getD n "" = (rowAt s n).headD "" := by
  induction s generalizing n with
  | nil => simp at h
  | cons a t ih =>
    cases n with
    | zero => simp [heads, rowAt, List.getD]
    | succ m =>
      have h2 : m < t.length := by simpa using h
      simpa [heads, rowAt_cons_succ, List.getD_cons_succ] using ih h2

/-- Writing a row whose values are already a prefix of the target row
changes nothing. -/
theorem writeRow_of_prefix {old r : Row} (h : ∃ t, old = r ++ t) :
    writeRow old r = old := by
  obtain ⟨t, rfl⟩ := h
  simp [writeRow, List.drop_left]

theorem writeRow_prefix (old r : Row) : ∃ t, writeRow old r = r ++ t :=
  ⟨old.drop r.length, rfl⟩

theorem writeRow_headD {old r : Row} (h : r ≠ []) :
    (writeRow old r).headD "" = r.headD "" := by
  cases r with
  | nil => exact absurd rfl h
  | cons a t => simp [writeRow]

theorem writeRow_writeRow (a h : Row) :
    writeRow (writeRow a h) h = writeRow a h := by
  simp [writeRow, List.drop_left]

theorem writeRow_ne_nil {old r : Row} (h : r ≠ []) : writeRow old r ≠ [] := by
  cases r with
  | nil => exact absurd rfl h
  | cons a t => simp [writeRow]

/-! ### Association-list (Python dict) lemmas -/

theorem assocFind_cons {α : Type} (p : String × α) (t : List (String × α))
    (k : String) :
    assocFind (p :: t) k = if p.1 = k then some p.2 else assocFind t k := rfl

theorem assocFind_map_ne {α : Type} (t : List (String × α)) (k k2 : String)
    (v : α) (h : k2 ≠ k) :
    assocFind (t.map (fun p => if p.1 = k then (k, v) else p)) k2 =
      assocFind t k2 := by
  induction t with
  | nil => rfl
  | cons q t ih =>
    have hk : k ≠ k2 := fun hc => h hc.symm
    by_cases hq : q.1 = k
    · rw [List.map_cons, if_pos hq]
      simp only [assocFind_cons, ih]
      simp [hq, hk]
    · rw [List.map_cons, if_neg hq]
      simp only [assocFind_cons, ih]

theorem assocFind_append_single {α : Type} (m : List (String × α))
    (k k2 : String) (v : α) (h : ¬ m.any (fun p => p.1 = k)) :
    assocFind (m ++ [(k, v)]) k2 =
      if k2 = k then some v else assocFind m k2 := by
  induction m with
  | nil =>
    simp only [List.nil_append, assocFind_cons]
    by_cases h2 : k2 = k
    · simp [h2]
    · have hk : k ≠ k2 := fun hc => h2 hc.symm
      simp [h2, hk]
  | cons p t ih =>
    have hp : ¬ p.1 = k := by
      intro hc
      exact h (List.any_eq_true.mpr ⟨p, List.mem_cons_self .., by simp [hc]⟩)
    have ht : ¬ t.any (fun q => q.1 = k) := by
      intro hc
      rcases List.any_eq_true.mp hc with ⟨q, hq, hqk⟩
      exact h (List.any_eq_true.mpr ⟨q, List.mem_cons_of_mem _ hq, hqk⟩)
    simp only [List.cons_append, assocFind_cons, ih ht]
    by_cases h2 : k2 = k
    · subst h2
      simp [hp]
    · simp [h2]

theorem assocFind_assocSet {α : Type} (m : List (String × α)) (k k2 : String)
    (v : α) :
    assocFind (assocSet m k v) k2 =
      if k2 = k then some v else assocFind m k2 := by
  by_cases hmem : m.any (fun p => p.1 = k)
  · simp only [assocSet, if_pos hmem]
    induction m with
    | nil => simp at hmem
    | cons p t ih =>
      by_cases hp : p.1 = k
      · rw [List.map_cons, if_pos hp]
        by_cases h2 : k2 = k
        · subst h2
          simp [assocFind_cons, hp]
        · have hk : k ≠ k2 := fun hc => h2 hc.symm
          have hpk : ¬ p.1 = k2 := by rw [hp]; exact hk
          simp only [assocFind_cons, assocFind_map_ne t k k2 v h2]
          simp [hk, h2, hpk]
      · have hmem2 : t.any (fun q => q.1 = k) := by
          rcases List.any_eq_true.mp hmem with ⟨q, hq, hqk⟩
          rcases List.mem_cons.mp hq with hh | hh
          · exact absurd (by simpa [hh] using hqk) hp
          · exact List.any_eq_true.mpr ⟨q, hh, hqk⟩
        rw [List.map_cons, if_neg hp]
        simp only [assocFind_cons, ih hmem2]
        by_cases h2 : k2 = k
        · subst h2
          simp [hp]
        · simp [h2]
  · simp only [assocSet, if_neg hmem]
    exact assocFind_append_single m k k2 v hmem

/-! ### Last-occurrence characterization of the existing-row map -/

/-- Index of the last occurrence of `k` in a list of keys. -/
def lastIdx (hs : List String) (k : String) : Option Nat :=
  match hs with
  | [] => none
  | h :: rest =>
    match lastIdx rest k with
    | some j => some (j + 1)
    | none => if h = k then some 0 else none

theorem lastIdx_none_iff (hs : List String) (k : String) :
    lastIdx hs k = none ↔ ∀ h ∈ hs, h ≠ k := by
  induction hs with
  | nil => simp [lastIdx]
  | cons h rest ih =>
    simp only [lastIdx]
    cases hrec : lastIdx rest k with
    | some j =>
      simp only []
      constructor
      · intro hc
        exact absurd hc (by simp)
      · intro hall
        have : ∀ x ∈ rest, x ≠ k := fun x hx => hall x (List.mem_cons_of_mem _ hx)
        rw [ih.mpr this] at hrec
        exact absurd hrec (by simp)
    | none =>
      by_cases hk : h = k
      · simp [hk]
      · simp only [if_neg hk]
        constructor
        · intro _ x hx
          rcases List.mem_cons.mp hx with rfl | hx2
          · exact hk
          · exact (ih.mp hrec) x hx2
        · intro _
          trivial

theorem lastIdx_spec {hs : List String} {k : String} {j : Nat}
    (h : lastIdx hs k = some j) : j < hs.length ∧ hs.getD j "" = k := by
  induction hs generalizing j with
  | nil => simp [lastIdx] at h
  | cons x rest ih =>
    simp only [lastIdx] at h
    cases hrec : lastIdx rest k with
    | some j2 =>
      rw [hrec] at h
      simp only [Option.some.injEq] at h
      subst h
      obtain ⟨hlt, hval⟩ := ih hrec
      exact ⟨by simpa using Nat.succ_lt_succ hlt, by simpa using hval⟩
    | none =>
      rw [hrec] at h
      by_cases hk : x = k
      · rw [if_pos hk] at h
        simp only [Option.some.injEq] at h
        subst h
        exact ⟨by simp, by simpa using hk⟩
      · rw [if_neg hk] at h
        simp at h

theorem lastIdx_append (hs1 hs2 : List String) (k : String) :
    lastIdx (hs1 ++ hs2) k =
      match lastIdx hs2 k with
      | some j => some (hs1.length + j)
      | none => lastIdx hs1 k := by
  induction hs1 with
  | nil =>
    simp only [List.nil_append, List.length_nil]
    cases lastIdx hs2 k <;> simp [lastIdx]
  | cons x rest ih =>
    show (match lastIdx (rest ++ hs2) k with
          | some j => some (j + 1)
          | none => if x = k then some 0 else none) = _
    rw [ih]
    cases h2 : lastIdx hs2 k with
    | some j =>
      simp only [List.length_cons]
      congr 1
      omega
    | none => rfl

theorem buildEmGo_spec (rows : List Row) (i : Nat) (m : List (String × Nat))
    (k : String) :
    assocFind (buildEmGo i m rows) k =
      match lastIdx (heads rows) k with
      | some j => some (i + j + 2)
      | none => assocFind m k := by
  induction rows generalizing i m with
  | nil => simp [buildEmGo, heads, lastIdx]
  | cons r rest ih =>
    simp only [buildEmGo, heads, List.map_cons]
    rw [ih]
    simp only [lastIdx]
    cases hrec : lastIdx (heads rest) k with
    | some j =>
      simp only [heads] at hrec
      rw [hrec]
      simp only []
      congr 1
      omega
    | none =>
      simp only [heads] at hrec
      rw [hrec]
      rw [assocFind_assocSet]
      by_cases hk : r.headD "" = k
      · rw [List.headD_eq_head?_getD] at hk
        simp [hk]
      · rw [List.headD_eq_head?_getD] at hk
        have hnk : ¬ k = r.head?.getD "" := fun hc => hk hc.symm
        simp [hk, hnk]

/-- `existing_map` lookup = the last occurrence of the key in the data
rows' key column, offset to the 1-based sheet row number. -/
theorem existingMap_find (rows : List Row) (k : String) :
    assocFind (existingMap rows) k = (lastIdx (heads rows) k).map (fun j => j + 2) := by
  rw [existingMap, buildEmGo_spec]
  cases h : lastIdx (heads rows) k with
  | some j => simp
  | none => simp [assocFind]

/-! ### Batch-update lemmas -/

theorem applyUpdates_nil (s : List Row) : applyUpdates s [] = s := rfl

theorem applyUpdates_cons (s : List Row) (u : Nat × Row) (us : List (Nat × Row)) :
    applyUpdates s (u :: us) =
      applyUpdates (s.set (u.1 - 1) (writeRow (rowAt s (u.1 - 1)) u.2)) us := rfl

theorem applyUpdates_length (s : List Row) (us : List (Nat × Row)) :
    (applyUpdates s us).length = s.length := by
  induction us generalizing s with
  | nil => rfl
  | cons u us ih => rw [applyUpdates_cons, ih, List.length_set]

/-- A batch of updates each of which rewrites a row with its own current
prefix is a no-op. -/
theorem applyUpdates_noop {s : List Row} {us : List (Nat × Row)}
    (h : ∀ u ∈ us, ∃ t, rowAt s (u.1 - 1) = u.2 ++ t) :
    applyUpdates s us = s := by
  induction us with
  | nil => rfl
  | cons u us ih =>
    have hu := h u (List.mem_cons_self ..)
    have hw : writeRow (rowAt s (u.1 - 1)) u.2 = rowAt s (u.1 - 1) :=
      writeRow_of_prefix hu
    rw [applyUpdates_cons, hw]
    by_cases hb : u.1 - 1 < s.length
    · rw [set_rowAt_self hb]
      exact ih (fun v hv => h v (List.mem_cons_of_mem _ hv))
    · rw [List.set_eq_of_length_le (by omega)]
      exact ih (fun v hv => h v (List.mem_cons_of_mem _ hv))

/-- Positions no update targets are unchanged. -/
theorem applyUpdates_untouched {s : List Row} {us : List (Nat × Row)} {n : Nat}
    (h : ∀ u ∈ us, u.1 - 1 ≠ n) :
    rowAt (applyUpdates s us) n = rowAt s n := by
  induction us generalizing s with
  | nil => rfl
  | cons u us ih =>
    rw [applyUpdates_cons,
      ih (fun v hv => h v (List.mem_cons_of_mem _ hv)),
      rowAt_set_ne (h u (List.mem_cons_self ..))]

/-- With pairwise-distinct in-bounds targets, every update's row content
prefixes the final sheet at its target position. -/
theorem applyUpdates_content {s : List Row} {us : List (Nat × Row)}
    (hdist : us.Pairwise (fun a b => a.1 ≠ b.1))
    (hbnd : ∀ u ∈ us, 1 ≤ u.1 ∧ u.1 - 1 < s.length) :
    ∀ u ∈ us, ∃ t, rowAt (applyUpdates s us) (u.1 - 1) = u.2 ++ t := by
  induction us generalizing s with
  | nil => intro u hu; simp at hu
  | cons a us ih =>
    intro u hu
    rcases List.mem_cons.mp hu with rfl | hmem
    · have huntouched : ∀ v ∈ us, v.1 - 1 ≠ u.1 - 1 := by
        intro v hv
        have hne : u.1 ≠ v.1 := (List.pairwise_cons.mp hdist).1 v hv
        have h1 : 1 ≤ u.1 := (hbnd u (List.mem_cons_self ..)).1
        have h2 : 1 ≤ v.1 := (hbnd v (List.mem_cons_of_mem _ hv)).1
        omega
      rw [applyUpdates_cons, applyUpdates_untouched huntouched,
        rowAt_set_self (hbnd u (List.mem_cons_self ..)).2]
      exact writeRow_prefix ..
    · rw [applyUpdates_cons]
      exact ih (List.pairwise_cons.mp hdist).2
        (fun v hv => by
          have := hbnd v (List.mem_cons_of_mem _ hv)
          simpa [List.length_set] using this)
        u hmem

/-- Generic: setting an index to its current value is a no-op. -/
theorem set_getD_self {α : Type} (l : List α) (n : Nat) (d : α)
    (h : n < l.length) : l.set n (l.getD n d) = l := by
  induction l generalizing n with
  | nil => simp at h
  | cons a t ih =>
    cases n with
    | zero => simp [List.getD]
    | succ m =>
      simp only [List.set, List.cons.injEq, true_and, List.getD_cons_succ]
      exact ih m (by simpa using h)

theorem rowAt_of_le {s : List Row} {n : Nat} (h : s.length ≤ n) :
    rowAt s n = [] := by
  simp [rowAt, List.getD_eq_getElem?_getD, List.getElem?_eq_none h]

theorem headD_rowAt_of_heads_eq {s1 s2 : List Row}
    (hh : heads s1 = heads s2) (hl : s1.length = s2.length) (n : Nat) :
    (rowAt s1 n).headD "" = (rowAt s2 n).headD "" := by
  by_cases hb : n < s1.length
  · rw [← heads_getD hb, ← heads_getD (by omega), hh]
  · rw [rowAt_of_le (by omega), rowAt_of_le (by omega)]

/-- Updates whose rows carry their target rows' keys preserve the whole
key column. -/
theorem applyUpdates_heads {s : List Row} {us : List (Nat × Row)}
    (h : ∀ u ∈ us, u.2 ≠ [] ∧ (rowAt s (u.1 - 1)).headD "" = u.2.headD "") :
    heads (applyUpdates s us) = heads s := by
  induction us generalizing s with
  | nil => rfl
  | cons u us ih =>
    have hu := h u (List.mem_cons_self ..)
    have hset : heads (s.set (u.1 - 1) (writeRow (rowAt s (u.1 - 1)) u.2)) =
        heads s := by
      by_cases hb : u.1 - 1 < s.length
      · have hhd : (writeRow (rowAt s (u.1 - 1)) u.2).headD "" =
            (rowAt s (u.1 - 1)).headD "" := by
          rw [writeRow_headD hu.1, hu.2]
        calc heads (s.set (u.1 - 1) (writeRow (rowAt s (u.1 - 1)) u.2))
            = (heads s).set (u.1 - 1)
                ((writeRow (rowAt s (u.1 - 1)) u.2).headD "") := by
              simp [heads, List.map_set]
          _ = (heads s).set (u.1 - 1) ((heads s).getD (u.1 - 1) "") := by
              rw [hhd, heads_getD hb]
          _ = heads s := set_getD_self _ _ _ (by simpa [heads] using hb)
      · rw [List.set_eq_of_length_le (by omega)]
    have hlen : (s.set (u.1 - 1) (writeRow (rowAt s (u.1 - 1)) u.2)).length =
        s.length := List.length_set ..
    rw [applyUpdates_cons, ih ?_, hset]
    intro v hv
    have hv2 := h v (List.mem_cons_of_mem _ hv)
    exact ⟨hv2.1, by rw [headD_rowAt_of_heads_eq hset hlen]; exact hv2.2⟩

theorem rowAt_drop_one (s : List Row) (j : Nat) :
    rowAt (s.drop 1) j = rowAt s (j + 1) := by
  cases s with
  | nil => rfl
  | cons a t => rw [List.drop_one, List.tail_cons, rowAt_cons_succ]

theorem heads_append (A B : List Row) : heads (A ++ B) = heads A ++ heads B :=
  List.map_append ..

theorem heads_drop (s : List Row) (n : Nat) :
    heads (s.drop n) = (heads s).drop n := List.map_drop ..

theorem heads_length (s : List Row) : (heads s).length = s.length :=
  List.length_map ..

/-- Pairwise transported through `filterMap`, keeping membership. -/
theorem pairwise_filterMap_of {α β : Type} {R : α → α → Prop}
    {S : β → β → Prop} {l : List α} (f : α → Option β) (h : l.Pairwise R)
    (hf : ∀ a b x y, a ∈ l → b ∈ l → R a b → f a = some x → f b = some y → S x y) :
    (l.filterMap f).Pairwise S := by
  induction l with
  | nil => exact List.Pairwise.nil
  | cons a t ih =>
    have hpair := List.pairwise_cons.mp h
    have htail : (t.filterMap f).Pairwise S :=
      ih hpair.2 (fun a2 b x y ha hb hr hfa hfb =>
        hf a2 b x y (List.mem_cons_of_mem _ ha) (List.mem_cons_of_mem _ hb)
          hr hfa hfb)
    cases hfa : f a with
    | none =>
      rw [List.filterMap_cons, hfa]
      exact htail
    | some x =>
      rw [List.filterMap_cons, hfa]
      refine List.pairwise_cons.mpr ⟨?_, htail⟩
      intro y hy
      rcases List.mem_filterMap.mp hy with ⟨b, hb, hfb⟩
      exact hf a b x y (List.mem_cons_self ..) (List.mem_cons_of_mem _ hb)
        (hpair.1 b hb) hfa hfb

/-- Membership characterization of the batched update list. -/
theorem mem_genericUpserts {ndm : List (String × Row)} {em : List (String × Nat)}
    {u : Nat × Row} (h : u ∈ genericUpserts ndm em) :
    ∃ p ∈ ndm, assocFind em p.1 = some u.1 ∧ u.2 = p.2 := by
  rcases List.mem_filterMap.mp h with ⟨p, hp, hfp⟩
  cases hfind : assocFind em p.1 with
  | none => rw [hfind] at hfp; simp at hfp
  | some idx =>
    rw [hfind] at hfp
    have hfp2 : (idx, p.2) = u := by simpa using hfp
    refine ⟨p, hp, ?_, ?_⟩
    · rw [hfind, ← hfp2]
    · rw [← hfp2]

/-- Membership characterization of the batched append list. -/
theorem mem_genericAppends {ndm : List (String × Row)} {em : List (String × Nat)}
    {r : Row} (h : r ∈ genericAppends ndm em) :
    ∃ p ∈ ndm, assocFind em p.1 = none ∧ r = p.2 := by
  rcases List.mem_filterMap.mp h with ⟨p, hp, hfp⟩
  cases hfind : assocFind em p.1 with
  | none =>
    rw [hfind] at hfp
    simp only [Option.some.injEq] at hfp
    exact ⟨p, hp, hfind, hfp.symm⟩
  | some idx => rw [hfind] at hfp; simp at hfp

theorem genericAppends_mem_of {ndm : List (String × Row)}
    {em : List (String × Nat)} {p : String × Row} (hp : p ∈ ndm)
    (h : assocFind em p.1 = none) : p.2 ∈ genericAppends ndm em :=
  List.mem_filterMap.mpr ⟨p, hp, by rw [h]⟩

/-- In a block with pairwise-distinct keys, the row found at the index
of a key is the (unique) row carrying that key. -/
theorem unique_row_of_nodup_heads {B : List Row} {r : Row} {k : String}
    {j : Nat} (hnd : (heads B).Nodup) (hr : r ∈ B) (hrk : r.headD "" = k)
    (hj : (heads B).getD j "" = k) (hjb : j < B.length) : rowAt B j = r := by
  induction B generalizing j with
  | nil => simp at hr
  | cons b t ih =>
    have hnd2 := List.pairwise_cons.mp hnd
    cases j with
    | zero =>
      simp only [heads, List.map_cons, List.getD_cons_zero] at hj
      rcases List.mem_cons.mp hr with rfl | hmem
      · simp [rowAt, List.getD]
      · exfalso
        have hkmem : k ∈ heads t := by
          simp only [heads]
          exact List.mem_map.mpr ⟨r, hmem, hrk⟩
        exact hnd2.1 k hkmem hj
    | succ j2 =>
      have hj2 : (heads t).getD j2 "" = k := by
        simpa [heads, List.getD_cons_succ] using hj
      have hjb2 : j2 < t.length := by simpa using hjb
      rcases List.mem_cons.mp hr with rfl | hmem
      · exfalso
        have hlen2 : j2 < (heads t).length := by
          rw [heads_length]
          exact hjb2
        have hkmem : k ∈ heads t := by
          rw [← hj2, List.getD_eq_getElem _ _ hlen2]
          exact List.getElem_mem hlen2
        exact hnd2.1 k hkmem hrk
      · rw [rowAt_cons_succ]
        exact ih hnd2.2 hmem hj2 hjb2

/-- Rows of an updated sheet are either old rows or freshly written
ones. -/
theorem applyUpdates_mem {s : List Row} {us : List (Nat × Row)} {r : Row}
    (h : r ∈ applyUpdates s us) :
    r ∈ s ∨ ∃ u ∈ us, ∃ old, r = writeRow old u.2 := by
  induction us generalizing s with
  | nil => exact Or.inl h
  | cons u us ih =>
    rw [applyUpdates_cons] at h
    rcases ih h with hmem | ⟨v, hv, old, hold⟩
    · rcases List.mem_or_eq_of_mem_set hmem with hmem2 | rfl
      · exact Or.inl hmem2
      · exact Or.inr ⟨u, List.mem_cons_self .., rowAt s (u.1 - 1), rfl⟩
    · exact Or.inr ⟨v, List.mem_cons_of_mem _ hv, old, hold⟩

/-! ### `new_data_map` invariants -/

theorem mem_assocSet {α : Type} {m : List (String × α)} {k : String} {v : α}
    {p : String × α} (h : p ∈ assocSet m k v) : p = (k, v) ∨ p ∈ m := by
  by_cases hmem : m.any (fun q => q.1 = k)
  · simp only [assocSet, if_pos hmem] at h
    rcases List.mem_map.mp h with ⟨q, hq, hqe⟩
    by_cases hqk : q.1 = k
    · rw [if_pos hqk] at hqe
      exact Or.inl hqe.symm
    · rw [if_neg hqk] at hqe
      exact Or.inr (hqe ▸ hq)
  · simp only [assocSet, if_neg hmem] at h
    rcases List.mem_append.mp h with hmem2 | hmem2
    · exact Or.inr hmem2
    · exact Or.inl (by simpa using hmem2)

theorem assocSet_keys_nodup {α : Type} {m : List (String × α)} {k : String}
    {v : α} (h : (m.map Prod.fst).Nodup) :
    ((assocSet m k v).map Prod.fst).Nodup := by
  by_cases hmem : m.any (fun q => q.1 = k)
  · simp only [assocSet, if_pos hmem]
    have : (m.map (fun p => if p.1 = k then (k, v) else p)).map Prod.fst =
        m.map Prod.fst := by
      rw [List.map_map]
      apply List.map_congr_left
      intro p _
      by_cases hp : p.1 = k
      · simp [hp]
      · simp [hp]
    rw [this]
    exact h
  · simp only [assocSet, if_neg hmem, List.map_append]
    rw [List.nodup_append]
    refine ⟨h, by simp, ?_⟩
    intro x hx
    simp only [List.map_cons, List.map_nil, List.mem_singleton]
    intro hxk
    subst hxk
    rcases List.mem_map.mp hx with ⟨q, hq, hqe⟩
    exact hmem (List.any_eq_true.mpr ⟨q, hq, by simp [hqe]⟩)

/-- Elements of a fold of dict insertions: from the seed or from the
inserted pairs. -/
theorem mem_foldl_assocSet {β : Type} (key : β → String) (val : β → Row)
    (l : List β) (init : List (String × Row)) :
    ∀ p ∈ l.foldl (fun nd x => assocSet nd (key x) (val x)) init,
      p ∈ init ∨ ∃ x ∈ l, p = (key x, val x) := by
  induction l generalizing init with
  | nil => intro p hp; exact Or.inl hp
  | cons x l ih =>
    intro p hp
    rcases ih (assocSet init (key x) (val x)) p hp with hin | ⟨y, hy, hpe⟩
    · rcases mem_assocSet hin with hpe | hin2
      · exact Or.inr ⟨x, List.mem_cons_self .., hpe⟩
      · exact Or.inl hin2
    · exact Or.inr ⟨y, List.mem_cons_of_mem _ hy, hpe⟩

theorem foldl_assocSet_keys_nodup {β : Type} (key : β → String)
    (val : β → Row) (l : List β) (init : List (String × Row))
    (h : (init.map Prod.fst).Nodup) :
    ((l.foldl (fun nd x => assocSet nd (key x) (val x)) init).map Prod.fst).Nodup := by
  induction l generalizing init with
  | nil => exact h
  | cons x l ih => exact ih _ (assocSet_keys_nodup h)

/-- The well-formedness of `new_data_map` needed for idempotence:
pairwise-distinct keys, and every entry's row nonempty with the entry's
key in its first cell. -/
def goodNdm (ndm : List (String × Row)) : Prop :=
  (ndm.map Prod.fst).Nodup ∧ ∀ p ∈ ndm, p.2.headD "" = p.1 ∧ p.2 ≠ []

theorem buildNdm_keys_nodup (headers : List String) (data : DataRows) :
    ((buildNdm headers data).map Prod.fst).Nodup := by
  cases data with
  | metrics l => exact foldl_assocSet_keys_nodup _ _ l [] (by simp)
  | raw l => exact foldl_assocSet_keys_nodup _ _ l [] (by simp)

/-- The raw branch produces a good map when no incoming row is empty. -/
theorem goodNdm_raw {headers : List String} {l : List Row}
    (h : ∀ r ∈ l, r ≠ []) : goodNdm (buildNdm headers (.raw l)) := by
  refine ⟨buildNdm_keys_nodup headers (.raw l), ?_⟩
  intro p hp
  simp only [buildNdm] at hp
  rcases mem_foldl_assocSet (fun r => r.headD "") (fun r => r) l [] p hp with
    hin | ⟨x, hx, hpe⟩
  · simp at hin
  · subst hpe
    exact ⟨rfl, h x hx⟩

/-- Entries of the metric-branch `new_data_map` come from the metric
list, keyed by isoformat date with the projected row. -/
theorem mem_buildNdm_metrics (headers : List String) (l : List GarminMetrics) :
    ∀ p ∈ buildNdm headers (.metrics l),
      ∃ x ∈ l, p = (dateToISO x.date, metricRow headers x) := by
  suffices h : ∀ (init : List (String × Row)) p,
      p ∈ l.foldl (fun nd m => assocSet nd (dateToISO m.date) (metricRow headers m)) init →
      p ∈ init ∨ ∃ x ∈ l, p = (dateToISO x.date, metricRow headers x) by
    intro p hp
    rcases h [] p hp with hin | hgood
    · simp at hin
    · exact hgood
  induction l with
  | nil =>
    intro init p hp
    exact Or.inl hp
  | cons x t ih =>
    intro init p hp
    rcases ih (assocSet init (dateToISO x.date) (metricRow headers x)) p hp with
      hin | ⟨y, hy, hpe⟩
    · rcases mem_assocSet hin with hpe | hin2
      · exact Or.inr ⟨x, List.mem_cons_self .., hpe⟩
      · exact Or.inl hin2
    · exact Or.inr ⟨y, List.mem_cons_of_mem _ hy, hpe⟩

/-- The metric branch produces a good map when the header list starts
with the `Date` column (as every destination tab's does). -/
theorem goodNdm_metrics {headers : List String} {l : List GarminMetrics}
    (h : headers.head? = some "Date") :
    goodNdm (buildNdm headers (.metrics l)) := by
  obtain ⟨rest, hrest⟩ : ∃ rest, headers = "Date" :: rest := by
    cases headers with
    | nil => simp at h
    | cons a t =>
      have ha : a = "Date" := by simpa using h
      exact ⟨t, by rw [ha]⟩
  refine ⟨buildNdm_keys_nodup headers (.metrics l), ?_⟩
  intro p hp
  rcases mem_buildNdm_metrics headers l p hp with ⟨x, hx, hpe⟩
  subst hpe
  subst hrest
  constructor
  · have h1 : metricCell x "Date" = dateToISO x.date := rfl
    simp only [metricRow, List.map_cons, List.headD_cons, h1]
  · simp [metricRow]

/-! ### Facts about one merge pass -/

/-- Every batched update's sheet row number comes from the last
occurrence of its key among the data rows. -/
theorem genericUpserts_idx {ndm : List (String × Row)} {rows : List Row}
    {u : Nat × Row} (hu : u ∈ genericUpserts ndm (existingMap rows)) :
    ∃ p ∈ ndm, ∃ j, u.2 = p.2 ∧ u.1 = j + 2 ∧
      lastIdx (heads rows) p.1 = some j ∧ j < rows.length ∧
      (heads rows).getD j "" = p.1 := by
  rcases mem_genericUpserts hu with ⟨p, hp, hfind, hrow⟩
  rw [existingMap_find] at hfind
  cases hlast : lastIdx (heads rows) p.1 with
  | none => rw [hlast] at hfind; simp at hfind
  | some j =>
    rw [hlast] at hfind
    simp only [Option.map_some', Option.some.injEq] at hfind
    obtain ⟨hjlen, hjval⟩ := lastIdx_spec hlast
    exact ⟨p, hp, j, hrow, hfind.symm, hlast, by rwa [heads_length] at hjlen, hjval⟩

/-- The per-update facts needed for heads preservation and content:
row number ≥ 2 and in bounds, nonempty row, key in cell 0 matching the
targeted sheet row's key. -/
theorem genericUpserts_facts {ndm : List (String × Row)} {s1 : List Row}
    (hgood : goodNdm ndm) :
    ∀ u ∈ genericUpserts ndm (existingMap (s1.drop 1)),
      (2 ≤ u.1 ∧ u.1 - 1 < s1.length) ∧ u.2 ≠ [] ∧
        (rowAt s1 (u.1 - 1)).headD "" = u.2.headD "" := by
  intro u hu
  rcases genericUpserts_idx hu with ⟨p, hp, j, hrow, hidx, hlast, hjlen, hjval⟩
  have hjlen2 : j < (s1.drop 1).length := hjlen
  have hbound : u.1 - 1 < s1.length := by
    have := List.length_drop 1 s1 ▸ hjlen2
    omega
  refine ⟨⟨by omega, hbound⟩, hrow ▸ (hgood.2 p hp).2, ?_⟩
  have h1 : u.1 - 1 = j + 1 := by omega
  rw [h1, ← rowAt_drop_one, ← heads_getD hjlen2, hjval, hrow,
    (hgood.2 p hp).1]

/-- Distinct keys target distinct sheet rows. -/
theorem genericUpserts_pairwise {ndm : List (String × Row)} {rows : List Row}
    (hkeys : (ndm.map Prod.fst).Nodup) :
    (genericUpserts ndm (existingMap rows)).Pairwise (fun a b => a.1 ≠ b.1) := by
  have hpw : ndm.Pairwise (fun p q => p.1 ≠ q.1) :=
    (List.pairwise_map).mp hkeys
  apply pairwise_filterMap_of _ hpw
  intro a b x y ha hb hr hfa hfb
  cases hfinda : assocFind (existingMap rows) a.1 with
  | none => rw [hfinda] at hfa; simp at hfa
  | some ia =>
    cases hfindb : assocFind (existingMap rows) b.1 with
    | none => rw [hfindb] at hfb; simp at hfb
    | some ib =>
      rw [hfinda] at hfa
      rw [hfindb] at hfb
      have hxa : x.1 = ia := by
        have : (ia, a.2) = x := by simpa using hfa
        rw [← this]
      have hyb : y.1 = ib := by
        have : (ib, b.2) = y := by simpa using hfb
        rw [← this]
      rw [existingMap_find] at hfinda hfindb
      cases hla : lastIdx (heads rows) a.1 with
      | none => rw [hla] at hfinda; simp at hfinda
      | some ja =>
        cases hlb : lastIdx (heads rows) b.1 with
        | none => rw [hlb] at hfindb; simp at hfindb
        | some jb =>
          rw [hla] at hfinda
          rw [hlb] at hfindb
          simp only [Option.map_some', Option.some.injEq] at hfinda hfindb
          intro hxy
          apply hr
          rw [← (lastIdx_spec hla).2, ← (lastIdx_spec hlb).2]
          have : ja = jb := by omega
          rw [this]

/-- Keys of the batched append rows are pairwise distinct. -/
theorem genericAppends_heads_nodup {ndm : List (String × Row)}
    {em : List (String × Nat)} (hgood : goodNdm ndm) :
    (heads (genericAppends ndm em)).Nodup := by
  have hpw : ndm.Pairwise (fun p q => p.1 ≠ q.1) :=
    (List.pairwise_map).mp hgood.1
  have hpair : (genericAppends ndm em).Pairwise
      (fun r r2 => r.headD "" ≠ r2.headD "") := by
    apply pairwise_filterMap_of _ hpw
    intro a b x y ha hb hr hfa hfb
    have hxa : x = a.2 := by
      cases hf : assocFind em a.1 with
      | none => rw [hf] at hfa; simpa using hfa.symm
      | some i => rw [hf] at hfa; simp at hfa
    have hyb : y = b.2 := by
      cases hf : assocFind em b.1 with
      | none => rw [hf] at hfb; simpa using hfb.symm
      | some i => rw [hf] at hfb; simp at hfb
    rw [hxa, hyb, (hgood.2 a ha).1, (hgood.2 b hb).1]
    exact hr
  exact (List.pairwise_map).mpr hpair

/-- After one merge pass, every `new_data_map` key's last occurrence in
the sheet's key column points at a row that starts with that entry's
row values. -/
theorem mergeInto_keyfact {ndm : List (String × Row)} {s1 : List Row}
    (hgood : goodNdm ndm) (hs1 : s1 ≠ [])
    (hguard : ¬ (s1.drop 1).any (fun r => r.isEmpty)) :
    ∀ p ∈ ndm, ∃ j, lastIdx (heads ((mergeInto ndm s1).drop 1)) p.1 = some j ∧
      ∃ t, rowAt ((mergeInto ndm s1).drop 1) j = p.2 ++ t := by
  intro p hp
  have hlenpos : 0 < s1.length := List.length_pos.mpr hs1
  set em := existingMap (s1.drop 1) with hem
  set us := genericUpserts ndm em with hus
  set aps := genericAppends ndm em with haps
  set A := applyUpdates s1 us with hA
  have hfacts := @genericUpserts_facts ndm s1 hgood
  have hAlen : A.length = s1.length := applyUpdates_length ..
  have hheads : heads A = heads s1 :=
    applyUpdates_heads (fun u hu => ⟨(hfacts u hu).2.1, (hfacts u hu).2.2⟩)
  have hmerge : mergeInto ndm s1 = A ++ aps := by
    rw [mergeInto, if_neg hguard]
  have hdrop : (A ++ aps).drop 1 = A.drop 1 ++ aps :=
    List.drop_append_of_le_length (by omega)
  have hheadsE : heads (A.drop 1) = heads (s1.drop 1) := by
    rw [heads_drop, heads_drop, hheads]
  cases hfind : assocFind em p.1 with
  | some idx =>
    have humem : (idx, p.2) ∈ us := by
      rw [hus, genericUpserts]
      exact List.mem_filterMap.mpr ⟨p, hp, by rw [hfind]; rfl⟩
    rcases @genericUpserts_idx ndm (s1.drop 1) (idx, p.2) humem with
      ⟨q, hq, j, hrow, hidx, hlast, hjlen, hjval⟩
    have hpq : q = p := by
      apply List.inj_on_of_nodup_map hgood.1 hq hp
      have h1 : (heads (s1.drop 1)).getD j "" = q.1 := hjval
      have h2 := existingMap_find (s1.drop 1) p.1
      rw [hfind] at h2
      cases hlp : lastIdx (heads (s1.drop 1)) p.1 with
      | none => rw [hlp] at h2; simp at h2
      | some jp =>
        rw [hlp] at h2
        simp only [Option.map_some', Option.some.injEq] at h2
        have : jp = j := by omega
        rw [← h1, ← (lastIdx_spec hlp).2, this]
    subst hpq
    refine ⟨j, ?_, ?_⟩
    · have hnotaps : ∀ h2 ∈ heads aps, h2 ≠ q.1 := by
        intro h2 hmem hcontra
        subst hcontra
        rcases List.mem_map.mp hmem with ⟨r, hr, hrh⟩
        rcases mem_genericAppends hr with ⟨q2, hq2, hfind2, hre⟩
        have : q2 = q := by
          apply List.inj_on_of_nodup_map hgood.1 hq2 hq
          rw [← (hgood.2 q2 hq2).1, ← hre, hrh]
        rw [this] at hfind2
        rw [hfind2] at hfind
        exact Option.noConfusion hfind
      have hnone : lastIdx (heads aps) q.1 = none :=
        (lastIdx_none_iff (heads aps) q.1).mpr hnotaps
      rw [hmerge, hdrop, heads_append, lastIdx_append, hnone, hheadsE]
      exact hlast
    · have hdist := @genericUpserts_pairwise ndm (s1.drop 1) hgood.1
      have hcontent := applyUpdates_content (s := s1) hdist
        (fun u hu => ⟨by have := (hfacts u hu).1.1; omega, (hfacts u hu).1.2⟩)
        (idx, q.2) humem
      rcases hcontent with ⟨t, ht⟩
      refine ⟨t, ?_⟩
      have hidx2 : idx = j + 2 := hidx
      have hi1 : (idx, q.2).1 - 1 = j + 1 := by
        show idx - 1 = j + 1
        omega
      rw [hi1] at ht
      have ht2 : rowAt A (j + 1) = q.2 ++ t := ht
      rw [hmerge, rowAt_drop_one, rowAt_append_left ?hb]
      · exact ht2
      · simp only [hAlen]
        have hjd : j < (s1.drop 1).length := hjlen
        simp only [List.length_drop] at hjd
        omega
  | none =>
    have hmem2 : p.2 ∈ aps := genericAppends_mem_of hp hfind
    have hknot : ∀ h2 ∈ heads (s1.drop 1), h2 ≠ p.1 := by
      have h2 := existingMap_find (s1.drop 1) p.1
      rw [hfind] at h2
      cases hlp : lastIdx (heads (s1.drop 1)) p.1 with
      | some jp => rw [hlp] at h2; simp at h2
      | none => exact (lastIdx_none_iff ..).mp hlp
    have hkmem : p.1 ∈ heads aps :=
      List.mem_map.mpr ⟨p.2, hmem2, (hgood.2 p hp).1⟩
    have hlaps : ∃ j2, lastIdx (heads aps) p.1 = some j2 := by
      cases hl : lastIdx (heads aps) p.1 with
      | some j2 => exact ⟨j2, rfl⟩
      | none => exact absurd rfl ((lastIdx_none_iff ..).mp hl p.1 hkmem)
    rcases hlaps with ⟨j2, hj2⟩
    obtain ⟨hj2len, hj2val⟩ := lastIdx_spec hj2
    have hndaps : (heads aps).Nodup := genericAppends_heads_nodup hgood
    have hj2lenq : j2 < aps.length := by rwa [heads_length] at hj2len
    have hrowap : rowAt aps j2 = p.2 :=
      unique_row_of_nodup_heads hndaps hmem2 ((hgood.2 p hp).1) hj2val hj2lenq
    refine ⟨(heads (A.drop 1)).length + j2, ?_, [], ?_⟩
    · rw [hmerge, hdrop, heads_append, lastIdx_append, hj2]
    · rw [hmerge, hdrop, heads_length, rowAt_append_right, hrowap,
        List.append_nil]

/-- A merge pass introduces no empty data rows. -/
theorem mergeInto_no_empty {ndm : List (String × Row)} {s1 : List Row}
    (hgood : goodNdm ndm) (hs1 : s1 ≠ [])
    (hguard : ¬ (s1.drop 1).any (fun r => r.isEmpty)) :
    ¬ ((mergeInto ndm s1).drop 1).any (fun r => r.isEmpty) := by
  rw [mergeInto, if_neg hguard]
  set em := existingMap (s1.drop 1) with hem
  set us := genericUpserts ndm em with hus
  set aps := genericAppends ndm em with haps
  set A := applyUpdates s1 us with hA
  have hfacts := @genericUpserts_facts ndm s1 hgood
  have hAlen : A.length = s1.length := applyUpdates_length ..
  have hlenpos : 0 < s1.length := List.length_pos.mpr hs1
  have hdrop : (A ++ aps).drop 1 = A.drop 1 ++ aps :=
    List.drop_append_of_le_length (by omega)
  rw [hdrop]
  intro hany
  rcases List.any_eq_true.mp hany with ⟨r, hrmem, hremp⟩
  have hrnil : r = [] := by simpa using hremp
  subst hrnil
  rcases List.mem_append.mp hrmem with hmemA | hmemAps
  · rcases List.getElem_of_mem hmemA with ⟨i, hilen, hieq⟩
    have hrow : rowAt (A.drop 1) i = [] := by
      rw [rowAt, List.getD_eq_getElem _ _ hilen, hieq]
    rw [rowAt_drop_one] at hrow
    by_cases hex : ∃ u ∈ us, u.1 - 1 = i + 1
    · rcases hex with ⟨u, hu, hui⟩
      have hdist := @genericUpserts_pairwise ndm (s1.drop 1) hgood.1
      rcases applyUpdates_content (s := s1) hdist
        (fun v hv => ⟨by have := (hfacts v hv).1.1; omega, (hfacts v hv).1.2⟩)
        u hu with ⟨t, ht⟩
      rw [hui] at ht
      rw [hrow] at ht
      exact (hfacts u hu).2.1 (by
        cases hu2 : u.2 with
        | nil => rfl
        | cons a t2 => rw [hu2] at ht; simp at ht)
    · push_neg at hex
      have huntouched : rowAt A (i + 1) = rowAt s1 (i + 1) :=
        applyUpdates_untouched hex
      rw [huntouched, ← rowAt_drop_one] at hrow
      have hib : i < (s1.drop 1).length := by
        have : i < (A.drop 1).length := hilen
        simp only [List.length_drop] at this ⊢
        omega
      have hmem2 : rowAt (s1.drop 1) i ∈ s1.drop 1 := by
        rw [rowAt, List.getD_eq_getElem _ _ hib]
        exact List.getElem_mem hib
      rw [hrow] at hmem2
      exact hguard (List.any_eq_true.mpr ⟨[], hmem2, by simp⟩)
  · rcases mem_genericAppends hmemAps with ⟨q, hq, _, hre⟩
    exact (hgood.2 q hq).2 hre.symm

/-- The header row is untouched by a merge pass. -/
theorem mergeInto_rowAt_zero {ndm : List (String × Row)} {s1 : List Row}
    (hs1 : s1 ≠ []) :
    rowAt (mergeInto ndm s1) 0 = rowAt s1 0 := by
  rw [mergeInto]
  by_cases hguard : (s1.drop 1).any (fun r => r.isEmpty)
  · rw [if_pos hguard]
  · rw [if_neg hguard]
    have hlenpos : 0 < s1.length := List.length_pos.mpr hs1
    have hAlen : (applyUpdates s1 (genericUpserts ndm (existingMap (s1.drop 1)))).length
        = s1.length := applyUpdates_length ..
    rw [rowAt_append_left (by omega)]
    apply applyUpdates_untouched
    intro u hu
    rcases genericUpserts_idx hu with ⟨p, hp, j, _, hidx, _, _, _⟩
    have hidx2 : u.1 = j + 2 := hidx
    omega

theorem mergeInto_ne_nil {ndm : List (String × Row)} {s1 : List Row}
    (hs1 : s1 ≠ []) : mergeInto ndm s1 ≠ [] := by
  rw [mergeInto]
  by_cases hguard : (s1.drop 1).any (fun r => r.isEmpty)
  · rw [if_pos hguard]; exact hs1
  · rw [if_neg hguard]
    intro hc
    have h1 := congrArg List.length hc
    simp only [List.length_append, applyUpdates_length, List.length_nil] at h1
    exact (List.length_pos.mpr hs1).ne (by omega)

/-- A second identical merge pass changes nothing. -/
theorem mergeInto_stable {ndm : List (String × Row)} {s1 : List Row}
    (hgood : goodNdm ndm) (hs1 : s1 ≠ []) :
    mergeInto ndm (mergeInto ndm s1) = mergeInto ndm s1 := by
  by_cases hguard : (s1.drop 1).any (fun r => r.isEmpty)
  · have h1 : mergeInto ndm s1 = s1 := by rw [mergeInto, if_pos hguard]
    rw [h1, h1]
  · have hkey := mergeInto_keyfact hgood hs1 hguard
    have hg2 := mergeInto_no_empty hgood hs1 hguard
    set out1 := mergeInto ndm s1 with hout1
    have hfind2 : ∀ p ∈ ndm, ∃ j,
        assocFind (existingMap (out1.drop 1)) p.1 = some (j + 2) ∧
        ∃ t, rowAt (out1.drop 1) j = p.2 ++ t := by
      intro p hp
      rcases hkey p hp with ⟨j, hj, t, ht⟩
      exact ⟨j, by rw [existingMap_find, hj]; rfl, t, ht⟩
    rw [mergeInto, if_neg hg2]
    show applyUpdates out1 (genericUpserts ndm (existingMap (out1.drop 1))) ++
      genericAppends ndm (existingMap (out1.drop 1)) = out1
    have haps2 : genericAppends ndm (existingMap (out1.drop 1)) = [] := by
      rw [genericAppends, List.filterMap_eq_nil_iff]
      intro p hp
      rcases hfind2 p hp with ⟨j, hj, _⟩
      rw [hj]
    have hnoop : applyUpdates out1
        (genericUpserts ndm (existingMap (out1.drop 1))) = out1 := by
      apply applyUpdates_noop
      intro u hu
      rcases mem_genericUpserts hu with ⟨p, hp, hfind, hrow⟩
      rcases hfind2 p hp with ⟨j, hj, t, ht⟩
      rw [hj] at hfind
      have hu1 : u.1 = j + 2 := by simpa using hfind.symm
      refine ⟨t, ?_⟩
      rw [hu1]
      show rowAt out1 (j + 2 - 1) = u.2 ++ t
      have h21 : j + 2 - 1 = j + 1 := by omega
      rw [h21, ← rowAt_drop_one, ht, hrow]
    rw [hnoop, haps2, List.append_nil]

/-! ### Header-write lemmas -/

theorem setHeader_ne_nil (h : List String) (s : List Row) :
    setHeader h s ≠ [] := by
  cases s <;> simp [setHeader]

theorem rowAt_zero_setHeader (h : List String) (s : List Row) :
    rowAt (setHeader h s) 0 = writeRow (rowAt s 0) h := by
  cases s with
  | nil => simp [setHeader, rowAt, writeRow, List.getD]
  | cons a t => simp [setHeader, rowAt, List.getD]

theorem setHeader_eq_self {h : List String} {s : List Row} (hne : s ≠ [])
    (hw : writeRow (rowAt s 0) h = rowAt s 0) : setHeader h s = s := by
  cases s with
  | nil => exact absurd rfl hne
  | cons a t =>
    have ha : rowAt (a :: t) 0 = a := by simp [rowAt, List.getD]
    rw [setHeader]
    rw [ha] at hw
    rw [hw]

theorem setHeader_setHeader (h : List String) (s : List Row) :
    setHeader h (setHeader h s) = setHeader h s := by
  apply setHeader_eq_self (setHeader_ne_nil h s)
  rw [rowAt_zero_setHeader, writeRow_writeRow]

/-- `_update_sheet_generic` is idempotent: running the same update twice
leaves exactly the sheet produced by running it once — every key's row
is updated in place on the second run, nothing is appended.  For the
metric-object branch this needs the tab's header list to start with the
`Date` column (true of every tab in `config.py`), so that the engine's
key column is the date column. -/
theorem updateSheetGeneric_stable (headers : List String) (data : DataRows)
    (sheet : List Row)
    (hmet : match data with
            | .metrics _ => headers.head? = some "Date"
            | .raw _ => True) :
    updateSheetGeneric headers data (updateSheetGeneric headers data sheet) =
      updateSheetGeneric headers data sheet := by
  have hmain : ∀ ndm : List (String × Row), goodNdm ndm →
      mergeInto ndm (setHeader headers (mergeInto ndm (setHeader headers sheet))) =
        mergeInto ndm (setHeader headers sheet) := by
    intro ndm hgood
    have hs1 : setHeader headers sheet ≠ [] := setHeader_ne_nil headers sheet
    have hSH : setHeader headers (mergeInto ndm (setHeader headers sheet)) =
        mergeInto ndm (setHeader headers sheet) := by
      apply setHeader_eq_self (mergeInto_ne_nil hs1)
      rw [mergeInto_rowAt_zero hs1, rowAt_zero_setHeader, writeRow_writeRow]
    rw [hSH]
    exact mergeInto_stable hgood hs1
  cases data with
  | raw l =>
    by_cases hl : l.any (fun r => r.isEmpty)
    · simp only [updateSheetGeneric, if_pos hl]
      exact setHeader_setHeader ..
    · have hne : ∀ r ∈ l, r ≠ [] := by
        intro r hr hc
        exact hl (List.any_eq_true.mpr ⟨r, hr, by simp [hc]⟩)
      simp only [updateSheetGeneric, if_neg hl]
      exact hmain _ (goodNdm_raw hne)
  | metrics l =>
    simp only [updateSheetGeneric]
    exact hmain _ (goodNdm_metrics hmet)

/-! ### Activities upsert invariant -/

/-- With no empty rows, the activity-ID map coincides with the generic
existing-row map. -/
theorem buildActIdsGo_eq {rows : List Row} (h : ∀ r ∈ rows, r ≠ []) :
    ∀ (i : Nat) (m : List (String × Nat)),
      buildActIdsGo i m rows = buildEmGo i m rows := by
  induction rows with
  | nil => intro i m; rfl
  | cons r rest ih =>
    intro i m
    have hr : ¬ r.isEmpty := by
      simpa using h r (List.mem_cons_self ..)
    rw [buildActIdsGo, buildEmGo, if_neg hr]
    exact ih (fun r2 hr2 => h r2 (List.mem_cons_of_mem _ hr2)) ..

/-- One `_update_sheet_activities_custom` call preserves the activities
invariant (pairwise-distinct, nonempty data rows), provided the incoming
batch has nonempty rows with pairwise-distinct activity IDs. -/
theorem updateActivitiesCustom_inv {rows sheet : List Row}
    (hrows : ∀ r ∈ rows, r ≠ [])
    (hkeys : (rows.map (fun r => r.headD "")).Nodup)
    (hnd : (heads (sheet.drop 1)).Nodup)
    (hne : ∀ r ∈ sheet.drop 1, r ≠ []) :
    (heads ((updateActivitiesCustom rows sheet).drop 1)).Nodup ∧
      ∀ r ∈ (updateActivitiesCustom rows sheet).drop 1, r ≠ [] := by
  rw [updateActivitiesCustom]
  have hanyF : ¬ rows.any (fun r => r.isEmpty) := by
    intro hc
    rcases List.any_eq_true.mp hc with ⟨r, hr, hre⟩
    exact hrows r hr (by simpa using hre)
  set s1 := if sheet.isEmpty then [ACTIVITIES_HEADERS] else sheet with hs1def
  have hsplit : (s1.drop 1 = sheet.drop 1) ∨ s1.drop 1 = [] := by
    by_cases hsh : sheet.isEmpty
    · right
      rw [hs1def, if_pos hsh]
      rfl
    · left
      rw [hs1def, if_neg hsh]
  have hs1ne : s1 ≠ [] := by
    rw [hs1def]
    by_cases hsh : sheet.isEmpty
    · simp [hsh]
    · rw [if_neg hsh]
      simpa using hsh
  have hdnd : (heads (s1.drop 1)).Nodup := by
    rcases hsplit with he | he
    · rw [he]; exact hnd
    · rw [he]; simp [heads]
  have hdne : ∀ r ∈ s1.drop 1, r ≠ [] := by
    rcases hsplit with he | he
    · rw [he]; exact hne
    · rw [he]; intro r hr; simp at hr
  rw [if_neg hanyF]
  have hemEq : buildActIdsGo 0 [] (s1.drop 1) = existingMap (s1.drop 1) :=
    buildActIdsGo_eq hdne 0 []
  rw [hemEq]
  set em := existingMap (s1.drop 1) with hem
  set us := rows.filterMap (fun r =>
    (assocFind em (r.headD "")).map (fun idx => (idx, r))) with hus
  set aps := rows.filterMap (fun r =>
    match assocFind em (r.headD "") with
    | some _ => none
    | none => some r) with haps
  have hlenpos : 0 < s1.length := List.length_pos.mpr hs1ne
  have husmem : ∀ u ∈ us, ∃ r ∈ rows, ∃ j, u.2 = r ∧ u.1 = j + 2 ∧
      j < (s1.drop 1).length ∧ (heads (s1.drop 1)).getD j "" = r.headD "" := by
    intro u hu
    rcases List.mem_filterMap.mp hu with ⟨r, hr, hfr⟩
    cases hfind : assocFind em (r.headD "") with
    | none => rw [hfind] at hfr; simp at hfr
    | some idx =>
      rw [hfind] at hfr
      have hfr2 : (idx, r) = u := by simpa using hfr
      rw [hem, existingMap_find] at hfind
      cases hlast : lastIdx (heads (s1.drop 1)) (r.headD "") with
      | none => rw [hlast] at hfind; simp at hfind
      | some j =>
        rw [hlast] at hfind
        simp only [Option.map_some', Option.some.injEq] at hfind
        obtain ⟨hjl, hjv⟩ := lastIdx_spec hlast
        refine ⟨r, hr, j, by rw [← hfr2], by rw [← hfr2]; omega, ?_, hjv⟩
        rwa [heads_length] at hjl
  have hfacts : ∀ u ∈ us, (2 ≤ u.1 ∧ u.1 - 1 < s1.length) ∧ u.2 ≠ [] ∧
      (rowAt s1 (u.1 - 1)).headD "" = u.2.headD "" := by
    intro u hu
    rcases husmem u hu with ⟨r, hr, j, hur, hidx, hjl, hjv⟩
    have hjd : j < (s1.drop 1).length := hjl
    rw [List.length_drop] at hjd
    refine ⟨⟨by omega, by omega⟩, hur ▸ hrows r hr, ?_⟩
    have h1 : u.1 - 1 = j + 1 := by omega
    rw [h1, ← rowAt_drop_one, ← heads_getD hjl, hjv, hur]
  have hdist : us.Pairwise (fun a b => a.1 ≠ b.1) := by
    have hpw : rows.Pairwise (fun r r2 => r.headD "" ≠ r2.headD "") :=
      (List.pairwise_map).mp hkeys
    apply pairwise_filterMap_of _ hpw
    intro a b x y ha hb hr hfa hfb
    cases hfinda : assocFind em (a.headD "") with
    | none => rw [hfinda] at hfa; simp at hfa
    | some ia =>
      cases hfindb : assocFind em (b.headD "") with
      | none => rw [hfindb] at hfb; simp at hfb
      | some ib =>
        rw [hfinda] at hfa
        rw [hfindb] at hfb
        have hxa : x.1 = ia := by
          have : (ia, a) = x := by simpa using hfa
          rw [← this]
        have hyb : y.1 = ib := by
          have : (ib, b) = y := by simpa using hfb
          rw [← this]
        rw [hem, existingMap_find] at hfinda hfindb
        cases hla : lastIdx (heads (s1.drop 1)) (a.headD "") with
        | none => rw [hla] at hfinda; simp at hfinda
        | some ja =>
          cases hlb : lastIdx (heads (s1.drop 1)) (b.headD "") with
          | none => rw [hlb] at hfindb; simp at hfindb
          | some jb =>
            rw [hla] at hfinda
            rw [hlb] at hfindb
            simp only [Option.map_some', Option.some.injEq] at hfinda hfindb
            intro hxy
            apply hr
            rw [← (lastIdx_spec hla).2, ← (lastIdx_spec hlb).2]
            have : ja = jb := by omega
            rw [this]
  have hapsmem : ∀ r ∈ aps, r ∈ rows ∧
      assocFind em (r.headD "") = none := by
    intro r hr
    rcases List.mem_filterMap.mp hr with ⟨r2, hr2, hfr⟩
    cases hfind : assocFind em (r2.headD "") with
    | none =>
      rw [hfind] at hfr
      have : r2 = r := by simpa using hfr
      subst this
      exact ⟨hr2, hfind⟩
    | some idx => rw [hfind] at hfr; simp at hfr
  set A := applyUpdates s1 us with hA
  have hAlen : A.length = s1.length := applyUpdates_length ..
  have hheads : heads A = heads s1 :=
    applyUpdates_heads (fun u hu => ⟨(hfacts u hu).2.1, (hfacts u hu).2.2⟩)
  have hdrop : (A ++ aps).drop 1 = A.drop 1 ++ aps :=
    List.drop_append_of_le_length (by omega)
  have hheadsE : heads (A.drop 1) = heads (s1.drop 1) := by
    rw [heads_drop, heads_drop, hheads]
  constructor
  · rw [hdrop, heads_append, List.nodup_append, hheadsE]
    refine ⟨hdnd, ?_, ?_⟩
    · have hpw : rows.Pairwise (fun r r2 => r.headD "" ≠ r2.headD "") :=
        (List.pairwise_map).mp hkeys
      have hpair : aps.Pairwise (fun r r2 => r.headD "" ≠ r2.headD "") := by
        apply pairwise_filterMap_of _ hpw
        intro a b x y ha hb hr hfa hfb
        have hxa : x = a := by
          cases hf : assocFind em (a.headD "") with
          | none => rw [hf] at hfa; simpa using hfa.symm
          | some i => rw [hf] at hfa; simp at hfa
        have hyb : y = b := by
          cases hf : assocFind em (b.headD "") with
          | none => rw [hf] at hfb; simpa using hfb.symm
          | some i => rw [hf] at hfb; simp at hfb
        rw [hxa, hyb]
        exact hr
      exact (List.pairwise_map).mpr hpair
    · intro x hx
      simp only [heads] at hx ⊢
      rcases List.mem_map.mp hx with ⟨r, hrmem, hrh⟩
      intro hcontra
      rcases List.mem_map.mp hcontra with ⟨r2, hr2mem, hr2h⟩
      rcases hapsmem r2 hr2mem with ⟨_, hfind⟩
      rw [hem, existingMap_find] at hfind
      have hnone : lastIdx (heads (s1.drop 1)) (r2.headD "") = none := by
        cases hl : lastIdx (heads (s1.drop 1)) (r2.headD "") with
        | none => rfl
        | some j => rw [hl] at hfind; simp at hfind
      have hrmem2 : r2.headD "" ∈ heads (s1.drop 1) := by
        rw [hr2h, ← hrh]
        exact List.mem_map.mpr ⟨r, hrmem, rfl⟩
      exact (lastIdx_none_iff ..).mp hnone _ hrmem2 rfl
  · intro r hr
    rw [hdrop] at hr
    rcases List.mem_append.mp hr with hmemA | hmemAps
    · intro hrnil
      subst hrnil
      rcases List.getElem_of_mem hmemA with ⟨i, hilen, hieq⟩
      have hrow : rowAt (A.drop 1) i = [] := by
        rw [rowAt, List.getD_eq_getElem _ _ hilen, hieq]
      rw [rowAt_drop_one] at hrow
      by_cases hex : ∃ u ∈ us, u.1 - 1 = i + 1
      · rcases hex with ⟨u, hu, hui⟩
        rcases applyUpdates_content (s := s1) hdist
          (fun v hv => ⟨by have := (hfacts v hv).1.1; omega, (hfacts v hv).1.2⟩)
          u hu with ⟨t, ht⟩
        rw [hui, hrow] at ht
        exact (hfacts u hu).2.1 (by
          cases hu2 : u.2 with
          | nil => rfl
          | cons a t2 => rw [hu2] at ht; simp at ht)
      · push_neg at hex
        have huntouched : rowAt A (i + 1) = rowAt s1 (i + 1) :=
          applyUpdates_untouched hex
        rw [huntouched, ← rowAt_drop_one] at hrow
        have hib : i < (s1.drop 1).length := by
          have h2 : i < (A.drop 1).length := hilen
          simp only [List.length_drop] at h2 ⊢
          omega
        have hmem2 : rowAt (s1.drop 1) i ∈ s1.drop 1 := by
          rw [rowAt, List.getD_eq_getElem _ _ hib]
          exact List.getElem_mem hib
        rw [hrow] at hmem2
        exact hdne [] hmem2 rfl
    · exact hrows r (hapsmem r hmemAps).1

/-! ### Drive CSV dedup lemmas -/

theorem mem_keepLastByKey {l : List (String × Row)} {x : String × Row}
    (h : x ∈ keepLastByKey l) : x ∈ l := by
  induction l with
  | nil => simp [keepLastByKey] at h
  | cons a t ih =>
    rw [keepLastByKey] at h
    by_cases ha : t.any (fun y => y.1 = a.1)
    · rw [if_pos ha] at h
      exact List.mem_cons_of_mem _ (ih h)
    · rw [if_neg ha] at h
      rcases List.mem_cons.mp h with rfl | hmem
      · exact List.mem_cons_self ..
      · exact List.mem_cons_of_mem _ (ih hmem)

theorem keepLastByKey_nodup (l : List (String × Row)) :
    ((keepLastByKey l).map Prod.fst).Nodup := by
  induction l with
  | nil => simp [keepLastByKey]
  | cons a t ih =>
    rw [keepLastByKey]
    by_cases ha : t.any (fun y => y.1 = a.1)
    · rw [if_pos ha]
      exact ih
    · rw [if_neg ha]
      simp only [List.map_cons, List.nodup_cons]
      refine ⟨?_, ih⟩
      intro hc
      rcases List.mem_map.mp hc with ⟨y, hy, hye⟩
      exact ha (List.any_eq_true.mpr
        ⟨y, mem_keepLastByKey hy, by simp [hye]⟩)

/-- A sequence of activities upserts against an initially fresh
destination (`main.sync` runs over possibly overlapping date ranges). -/
def runActivitySyncs (batches : List (List Row)) : List Row :=
  batches.foldl (fun s b => updateActivitiesCustom b s) []

/-! ## Claim theorems -/

/-- C1: Idempotent upsert — for every destination tab (either data-row
shape of `_update_sheet_generic`) and every record list, running the
same update twice produces exactly the sheet of running it once: a key
already present is updated in place, never appended, so row counts and
field values agree with the latest run.  The metric-object branch needs
the tab's headers to start with `"Date"`, as every tab's do. -/
theorem claim_C1_idempotent_upsert (headers : List String) (data : DataRows)
    (sheet : List Row)
    (hmet : match data with
            | .metrics _ => headers.head? = some "Date"
            | .raw _ => True) :
    updateSheetGeneric headers data (updateSheetGeneric headers data sheet) =
      updateSheetGeneric headers data sheet ∧
    (updateSheetGeneric headers data (updateSheetGeneric headers data sheet)).length =
      (updateSheetGeneric headers data sheet).length := by
  have h := updateSheetGeneric_stable headers data sheet hmet
  exact ⟨h, by rw [h]⟩

/-- Witness for C1 at a concrete metric record and a concrete raw-row
update on the stress tab. -/
theorem claim_C1_idempotent_upsert_witness :
    updateSheetGeneric HEADERS (.metrics [dateOnlyMetrics 19783])
        (updateSheetGeneric HEADERS (.metrics [dateOnlyMetrics 19783]) []) =
      updateSheetGeneric HEADERS (.metrics [dateOnlyMetrics 19783]) [] ∧
    updateSheetGeneric STRESS_HEADERS (.raw [["2024-03-01", "42"]])
        (updateSheetGeneric STRESS_HEADERS (.raw [["2024-03-01", "42"]])
          [STRESS_HEADERS, ["2024-03-01", "17"]]) =
      updateSheetGeneric STRESS_HEADERS (.raw [["2024-03-01", "42"]])
        [STRESS_HEADERS, ["2024-03-01", "17"]] :=
  ⟨(claim_C1_idempotent_upsert HEADERS (.metrics [dateOnlyMetrics 19783]) []
      rfl).1,
   (claim_C1_idempotent_upsert STRESS_HEADERS (.raw [["2024-03-01", "42"]])
      [STRESS_HEADERS, ["2024-03-01", "17"]] trivial).1⟩

/-- C2: Activity-ID uniqueness — after any sequence of activities
upserts starting from a fresh destination, in which each batch has
nonempty rows with pairwise-distinct activity IDs (each sync batch holds
each activity once even across overlapping ranges), every activity ID in
the sheet occupies exactly one row; and the Drive-CSV activities merge
(`drop_duplicates(subset=['Activity ID'], keep='last')`, in any
subsequent row order) leaves pairwise-distinct IDs unconditionally. -/
theorem claim_C2_activity_id_unique :
    (∀ batches : List (List Row),
      (∀ b ∈ batches, (∀ r ∈ b, r ≠ []) ∧
        (b.map (fun r => r.headD "")).Nodup) →
      (heads ((runActivitySyncs batches).drop 1)).Nodup) ∧
    (∀ (existing new : List (String × Row)) (l2 : List (String × Row)),
      l2.Perm (mergeActivitiesCsv existing new) →
      (l2.map Prod.fst).Nodup) := by
  constructor
  · intro batches hbs
    suffices h : ∀ (s : List Row), (heads (s.drop 1)).Nodup →
        (∀ r ∈ s.drop 1, r ≠ []) →
        (∀ b ∈ batches, (∀ r ∈ b, r ≠ []) ∧
          (b.map (fun r => r.headD "")).Nodup) →
        (heads ((batches.foldl (fun s b => updateActivitiesCustom b s) s).drop 1)).Nodup ∧
        ∀ r ∈ (batches.foldl (fun s b => updateActivitiesCustom b s) s).drop 1, r ≠ [] by
      exact (h [] (by simp [heads]) (by simp) hbs).1
    clear hbs
    induction batches with
    | nil =>
      intro s hnd hne _
      exact ⟨hnd, hne⟩
    | cons b bs ih =>
      intro s hnd hne hb
      have hb1 := hb b (List.mem_cons_self ..)
      have hstep := updateActivitiesCustom_inv hb1.1 hb1.2 hnd hne
      exact ih _ hstep.1 hstep.2
        (fun b2 hb2 => hb b2 (List.mem_cons_of_mem _ hb2))
  · intro existing new l2 hperm
    have hmap : (l2.map Prod.fst).Perm
        ((mergeActivitiesCsv existing new).map Prod.fst) :=
      hperm.map Prod.fst
    exact hmap.nodup_iff.mpr (keepLastByKey_nodup _)

/-- Witness for C2: two syncs re-fetching activity `111` plus a CSV
merge re-delivering ID `1`. -/
theorem claim_C2_activity_id_unique_witness :
    (heads ((runActivitySyncs
      [[["111", "run"], ["222", "bike"]], [["111", "run2"]]]).drop 1)).Nodup ∧
    ((mergeActivitiesCsv [("1", ["a"])] [("1", ["c"]), ("2", ["d"])]).map
      Prod.fst).Nodup :=
  ⟨claim_C2_activity_id_unique.1
      [[["111", "run"], ["222", "bike"]], [["111", "run2"]]] (by decide),
   claim_C2_activity_id_unique.2 [("1", ["a"])] [("1", ["c"]), ("2", ["d"])]
      _ (List.Perm.refl _)⟩

/-- The day loop visits exactly the closed interval, in order. -/
theorem fetchLoop_eq (f : Int → GarminMetrics) (s e : Int) :
    fetchLoop f s e =
      (List.range (e + 1 - s).toNat).map (fun (i : Nat) => f (s + (i : Int))) := by
  suffices h : ∀ (n : Nat) (s : Int), (e + 1 - s).toNat = n →
      fetchLoop f s e = (List.range n).map (fun (i : Nat) => f (s + (i : Int))) from
    h (e + 1 - s).toNat s rfl
  intro n
  induction n with
  | zero =>
    intro s hn
    rw [fetchLoop, dif_neg (by omega)]
    simp
  | succ m ih =>
    intro s hn
    have hle : s ≤ e := by omega
    rw [fetchLoop, dif_pos hle, ih (s + 1) (by omega),
      List.range_succ_eq_map]
    simp only [List.map_cons, List.map_map]
    congr 1
    · norm_num
    · apply List.map_congr_left
      intro i _
      simp only [Function.comp]
      congr 1
      push_cast
      ring

/-- C7: Historical partition (modelled from the spec — the PARTITIONING
stage of §4.6 is absent from this snapshot's `src/main.py`): the
historical subset holds exactly the records dated strictly before
today; for records dated `[today-2, today-1, today]` it is exactly the
first two; composed with the real stress-tab upsert on a fresh sheet,
the destination's key column holds exactly the two historical dates and
never today's. -/
theorem claim_C7_historical_partition :
    (∀ (today : Int) (records : List GarminMetrics) (r : GarminMetrics),
      r ∈ (partitionRecords today records).1 ↔ r ∈ records ∧ r.date < today) ∧
    (∀ (today : Int) (a b c : GarminMetrics),
      a.date = today - 2 → b.date = today - 1 → c.date = today →
      (partitionRecords today [a, b, c]).1 = [a, b]) ∧
    heads ((dispatchStressHistorical 19783
      [dateOnlyMetrics 19781, dateOnlyMetrics 19782, dateOnlyMetrics 19783]
      []).drop 1) = ["2024-02-28", "2024-02-29"] := by
  refine ⟨?_, ?_, ?_⟩
  · intro today records r
    simp [partitionRecords, List.mem_filter]
  · intro today a b c ha hb hc
    have h1 : a.date < today := by omega
    have h2 : b.date < today := by omega
    have h3 : ¬ c.date < today := by omega
    simp [partitionRecords, List.filter, h1, h2, h3]
  · rfl

/-- Witness for C7 at concrete records. -/
theorem claim_C7_historical_partition_witness :
    (dateOnlyMetrics 9 ∈
        (partitionRecords 10 [dateOnlyMetrics 9, dateOnlyMetrics 10]).1 ↔
      dateOnlyMetrics 9 ∈ [dateOnlyMetrics 9, dateOnlyMetrics 10] ∧
        (dateOnlyMetrics 9).date < 10) ∧
    (partitionRecords 10
      [dateOnlyMetrics 8, dateOnlyMetrics 9, dateOnlyMetrics 10]).1 =
      [dateOnlyMetrics 8, dateOnlyMetrics 9] :=
  ⟨claim_C7_historical_partition.1 10 _ _,
   claim_C7_historical_partition.2.1 10 (dateOnlyMetrics 8) (dateOnlyMetrics 9)
     (dateOnlyMetrics 10) (by decide) (by decide) (by decide)⟩

/-- C8: Pruning boundary (modelled from the spec — `prune_old_data` is
an unimplemented `pass` stub in this snapshot's `sheets_client.py`):
after pruning with an `n`-day window, a data row dated exactly at the
cutoff `today - n` is retained, one dated a day earlier is removed, and
one whose date fails to parse is conservatively retained; concretely for
a 365-day window ending 2024-03-01. -/
theorem claim_C8_pruning_boundary :
    (∀ (today n : Int) (hdr : Row) (rows : List Row) (r : Row),
      r ∈ rows → parseISO (r.headD "") = some (today - n) →
      r ∈ pruneOldData today n (hdr :: rows)) ∧
    (∀ (today n : Int) (hdr : Row) (rows : List Row) (r : Row),
      parseISO (r.headD "") = some (today - n - 1) →
      r ∉ (pruneOldData today n (hdr :: rows)).drop 1) ∧
    (∀ (today n : Int) (hdr : Row) (rows : List Row) (r : Row),
      r ∈ rows → parseISO (r.headD "") = none →
      r ∈ pruneOldData today n (hdr :: rows)) ∧
    pruneOldData 19783 365
      [["Date"], ["2023-03-02", "cut"], ["2023-03-01", "old"], ["n/a", "junk"]] =
      [["Date"], ["2023-03-02", "cut"], ["n/a", "junk"]] := by
  refine ⟨?_, ?_, ?_, ?_⟩
  · intro today n hdr rows r hr hparse
    rw [pruneOldData]
    apply List.mem_cons_of_mem
    apply List.mem_filter.mpr
    refine ⟨hr, ?_⟩
    rw [hparse]
    simp only [decide_eq_true_eq]
    omega
  · intro today n hdr rows r hparse hmem
    rw [pruneOldData, List.drop_one, List.tail_cons] at hmem
    have := (List.mem_filter.mp hmem).2
    rw [hparse] at this
    simp only [decide_eq_true_eq] at this
    omega
  · intro today n hdr rows r hr hparse
    rw [pruneOldData]
    apply List.mem_cons_of_mem
    apply List.mem_filter.mpr
    exact ⟨hr, by rw [hparse]⟩
  · rfl

/-- Witness for C8 at a concrete sheet (the cutoff of a 365-day window
ending 2024-03-01 is 2023-03-02). -/
theorem claim_C8_pruning_boundary_witness :
    ["2023-03-02", "cut"] ∈ pruneOldData 19783 365
      [["Date"], ["2023-03-02", "cut"], ["2023-03-01", "old"]] ∧
    ["2023-03-01", "old"] ∉ (pruneOldData 19783 365
      [["Date"], ["2023-03-02", "cut"], ["2023-03-01", "old"]]).drop 1 ∧
    ["n/a", "junk"] ∈ pruneOldData 19783 365 [["Date"], ["n/a", "junk"]] :=
  ⟨claim_C8_pruning_boundary.1 19783 365 ["Date"]
      [["2023-03-02", "cut"], ["2023-03-01", "old"]] _
      (List.mem_cons_self ..) (by decide),
   claim_C8_pruning_boundary.2.1 19783 365 ["Date"]
      [["2023-03-02", "cut"], ["2023-03-01", "old"]] _ (by decide),
   claim_C8_pruning_boundary.2.2.1 19783 365 ["Date"] [["n/a", "junk"]] _
      (List.mem_cons_self ..) (by decide)⟩

/-- C9: Whole-day failure degradation — an uncaught extraction exception
makes `get_metrics` return the date-only record (all other fields
`None`) instead of raising, exhibited at a concrete malformed bundle;
and the day loop accumulates exactly one record per day of the closed
interval `[start, end]`, in order, never skipping a day. -/
theorem claim_C9_whole_day_degradation :
    (∀ (b : Bundle) (t tz : Int) (e : String),
      extractBody b t tz = .error e → getMetrics b t tz = dateOnlyMetrics t) ∧
    extractBody c9FailBundle 19783 0 = .error "AttributeError: get dailySleepDTO" ∧
    getMetrics c9FailBundle 19783 0 = dateOnlyMetrics 19783 ∧
    (dateOnlyMetrics 19783).sleep_length = JVal.null ∧
    (dateOnlyMetrics 19783).steps = JVal.null ∧
    (dateOnlyMetrics 19783).activities = [] ∧
    (∀ (f : Int → GarminMetrics) (s e : Int), s ≤ e →
      (fetchLoop f s e).length = (e + 1 - s).toNat ∧
      fetchLoop f s e =
        (List.range (e + 1 - s).toNat).map (fun (i : Nat) => f (s + (i : Int)))) := by
  refine ⟨?_, rfl, rfl, rfl, rfl, rfl, ?_⟩
  · intro b t tz e h
    rw [getMetrics, h]
  · intro f s e _
    exact ⟨by rw [fetchLoop_eq, List.length_map, List.length_range], fetchLoop_eq ..⟩

/-- Witness for C9: the degradation at the failing bundle and a
three-day loop. -/
theorem claim_C9_whole_day_degradation_witness :
    getMetrics c9FailBundle 19783 0 = dateOnlyMetrics 19783 ∧
    (fetchLoop dateOnlyMetrics 19781 19783).length = 3 ∧
    fetchLoop dateOnlyMetrics 19781 19783 =
      [dateOnlyMetrics 19781, dateOnlyMetrics 19782, dateOnlyMetrics 19783] := by
  refine ⟨claim_C9_whole_day_degradation.1 c9FailBundle 19783 0
    "AttributeError: get dailySleepDTO" claim_C9_whole_day_degradation.2.1,
    ?_, ?_⟩
  · have h := (claim_C9_whole_day_degradation.2.2.2.2.2.2 dateOnlyMetrics
      19781 19783 (by decide)).1
    rw [h]
    rfl
  · have h := (claim_C9_whole_day_degradation.2.2.2.2.2.2 dateOnlyMetrics
      19781 19783 (by decide)).2
    rw [h]
    rfl

/-- C3 counterexample: with the sleep section present but lacking
`deepSleepSeconds`, the extractor's `(sleep_dto.get(...) or 0) / 60`
yields `sleep_deep = 0`, and with the summary present but lacking both
intensity keys, `intensity_minutes = 0`; neither value is `None`, so a
missing key IS coerced to 0 for these fields. -/
theorem claim_C3_missing_value_propagation_cex :
    JVal.lookupF [("sleepTimeSeconds", .num 25200)] "deepSleepSeconds"
      = none ∧
    (getMetrics c3Bundle 19783 0).sleep_deep = JVal.num 0 ∧
    JVal.lookupF [("activeKilocalories", .num 100)] "moderateIntensityMinutes"
      = none ∧
    (getMetrics c3Bundle 19783 0).intensity_minutes = JVal.num 0 ∧
    JVal.num 0 ≠ JVal.null :=
  ⟨rfl, by with_unfolding_all rfl, rfl, by with_unfolding_all rfl,
   fun h => JVal.noConfusion h⟩

/-- C3 (amended): an absent upstream section propagates as `None` in
every field it sources (an all-absent day extracts to the date-only
record, whose exported row is the date plus empty cells); a present
section lacking a field's key propagates `None` for the ordinary fields
(here: every summary field when only `activeKilocalories` is present,
and the sleep score/need/timestamps/respiration/SpO2); `None` exports as
`""` while `0` exports as `"0"`.  Excepted from the never-zero rule are
the four sleep-phase fields and `intensity_minutes`, which coerce
missing keys to `0` when their section is present. -/
theorem claim_C3_missing_value_propagation :
    (∀ (t tz : Int), getMetrics {} t tz = dateOnlyMetrics t) ∧
    (metricRow HEADERS (dateOnlyMetrics 19783)).tail = List.replicate 14 "" ∧
    (∀ q : ℚ, summaryPart (.obj [("activeKilocalories", .num q)]) =
      .ok { activeCal := .num q, intensity := .num 0 }) ∧
    sleepPart (.obj [("sleepTimeSeconds", .num 25200)]) 0 =
      .ok { length := .num 420, efficiency := .num 100, deep := .num 0,
            light := .num 0, rem := .num 0, awake := .num 0 } ∧
    renderJ JVal.null = "" ∧ renderJ (JVal.num 0) = "0" :=
  ⟨fun t tz => rfl, rfl, fun q => by with_unfolding_all rfl,
   by with_unfolding_all rfl, rfl, by with_unfolding_all rfl⟩

/-- Sum of a nonempty list of rationals each below 2880 is below
`2880 * length`. -/
theorem sum_lt_of_forall_lt : ∀ (l : List ℚ), l ≠ [] → (∀ x ∈ l, x < 2880) →
    l.sum < 2880 * l.length := by
  intro l
  induction l with
  | nil => intro h; exact absurd rfl h
  | cons a t ih =>
    intro _ hb
    rcases eq_or_ne t [] with ht | ht
    · subst ht
      simp only [List.sum_cons, List.sum_nil, add_zero, List.length_cons,
        List.length_nil]
      have := hb a (List.mem_cons_self ..)
      push_cast
      linarith
    · have h1 := ih ht (fun x hx => hb x (List.mem_cons_of_mem _ hx))
      have h2 := hb a (List.mem_cons_self ..)
      simp only [List.sum_cons, List.length_cons]
      push_cast
      push_cast at h1
      linarith

/-- `get_avg_time`'s single conditional subtraction of 1440 agrees with
the spec's mod-1440 normalization whenever every collected minute value
lies in `[0, 2880)` — which holds for all well-formed `HH:MM` inputs,
shifted or not. -/
theorem getAvgTime_refines (isStart : Bool) (vals : List JVal)
    (hb : ∀ x ∈ collectMinutes isStart vals, 0 ≤ x ∧ x < 2880) :
    getAvgTime isStart vals = specCircularAvgTime isStart vals := by
  unfold getAvgTime specCircularAvgTime
  set ml := collectMinutes isStart vals with hml
  by_cases hE : ml.isEmpty
  · simp [hE]
  · simp only [hE, if_false]
    have hne : ml ≠ [] := by
      intro h
      rw [h] at hE
      exact hE rfl
    have hlen : (0:ℚ) < ml.length := by
      have h2 : 0 < ml.length :=
        Nat.pos_of_ne_zero (fun h => hne (List.eq_nil_of_length_eq_zero h))
      exact_mod_cast h2
    have h0 : 0 ≤ meanQ ml := by
      apply div_nonneg
      · exact List.sum_nonneg (fun x hx => (hb x hx).1)
      · positivity
    have h1 : meanQ ml < 2880 := by
      rw [meanQ, div_lt_iff₀ hlen]
      exact sum_lt_of_forall_lt ml hne (fun x hx => (hb x hx).2)
    set avg := meanQ ml with havg
    congr 1
    by_cases hge : 24 * 60 ≤ avg
    · rw [if_pos hge]
      have hfl : ⌊avg / (24 * 60)⌋ = 1 := by
        rw [Int.floor_eq_iff]
        constructor
        · rw [le_div_iff₀ (by norm_num)]
          push_cast
          linarith
        · rw [div_lt_iff₀ (by norm_num)]
          push_cast
          linarith
      rw [qmod, hfl]
      push_cast
      ring_nf
    · rw [if_neg hge]
      push_neg at hge
      have hfl : ⌊avg / (24 * 60)⌋ = 0 := by
        rw [Int.floor_eq_iff]
        constructor
        · rw [le_div_iff₀ (by norm_num)]
          push_cast
          linarith
        · rw [div_lt_iff₀ (by norm_num)]
          push_cast
          linarith
      rw [qmod, hfl]
      push_cast
      ring_nf

/-- C4: Circular time averaging — on any input whose collected
(shifted) minute values lie in `[0, 2880)` (true of all well-formed
`HH:MM` strings), `get_avg_time` computes exactly the spec's
convert/shift/average/mod-1440/format pipeline; concretely, start times
`["23:50", "00:10"]` average to `"00:00"` (the `00:10` having been
shifted to minute 1450) while end times average with no shift, giving
`"12:00"`. -/
theorem claim_C4_circular_time_averaging :
    (∀ (isStart : Bool) (vals : List JVal),
      (∀ x ∈ collectMinutes isStart vals, 0 ≤ x ∧ x < 2880) →
      getAvgTime isStart vals = specCircularAvgTime isStart vals) ∧
    getAvgTime true [.str "23:50", .str "00:10"] = some "00:00" ∧
    getAvgTime false [.str "23:50", .str "00:10"] = some "12:00" ∧
    collectMinutes true [.str "23:50", .str "00:10"] = [1430, 1450] ∧
    collectMinutes false [.str "23:50", .str "00:10"] = [1430, 10] :=
  ⟨getAvgTime_refines, by with_unfolding_all rfl, by with_unfolding_all rfl,
   by with_unfolding_all rfl, by with_unfolding_all rfl⟩

/-- Witness for C4 at the spec's concrete start times. -/
theorem claim_C4_circular_time_averaging_witness :
    (∀ x ∈ collectMinutes true [.str "23:50", .str "00:10"],
      0 ≤ x ∧ x < 2880) ∧
    getAvgTime true [.str "23:50", .str "00:10"] =
      specCircularAvgTime true [.str "23:50", .str "00:10"] := by
  have hb : ∀ x ∈ collectMinutes true [.str "23:50", .str "00:10"],
      0 ≤ x ∧ x < 2880 := by
    intro x hx
    rw [show collectMinutes true [.str "23:50", .str "00:10"] = [1430, 1450]
      from by with_unfolding_all rfl] at hx
    simp only [List.mem_cons, List.not_mem_nil, or_false] at hx
    rcases hx with h | h <;> norm_num [h]
  exact ⟨hb, claim_C4_circular_time_averaging.1 true
    [.str "23:50", .str "00:10"] hb⟩

/-- C5: Sleep extraction postcondition — for every payload with
`sleepTimeSeconds = t > 0` and `awakeSleepSeconds = a`, the sleep block
produces `sleep_length = round(t / 60)` and `sleep_efficiency =
round((t - a) / t * 100)`; on the spec's concrete scenario
(`t = 25200`, `a = 600`, all other sections absent) the extracted
record has `sleep_length = 420`, `sleep_efficiency = 98`, the date, and
every stress / body-composition / blood-pressure field `None`, so the
exported stress row is the date plus empty cells. -/
theorem claim_C5_sleep_postcondition :
    (∀ (t a : ℚ), 0 < t →
      sleepPart (.obj [("sleepTimeSeconds", .num t),
        ("awakeSleepSeconds", .num a)]) 0 =
        .ok { length := .num (pyRound (t / 60)), awake := .num (a / 60),
              deep := .num 0, light := .num 0, rem := .num 0,
              efficiency := .num (pyRound ((t - a) / t * 100)) }) ∧
    extractBody c5Bundle 19783 0 =
      .ok { date := 19783, sleep_length := .num 420,
            sleep_efficiency := .num 98, sleep_deep := .num 0,
            sleep_light := .num 0, sleep_rem := .num 0,
            sleep_awake := .num 10 } ∧
    stressRow (getMetrics c5Bundle 19783 0) =
      ["2024-03-01", "", "", "", "", "", "", ""] := by
  refine ⟨?_, by with_unfolding_all rfl, by with_unfolding_all rfl⟩
  intro t a ht
  have htne : t ≠ 0 := ne_of_gt ht
  rcases eq_or_ne a 0 with ha | ha
  · subst ha
    simp [sleepPart, JVal.truthy, JVal.pyGet, JVal.pyGetD, JVal.lookupF,
      JVal.orElse, JVal.pyToNum, JVal.isNull, htne, ht, bind, Except.bind,
      pure, Except.pure]
  · simp [sleepPart, JVal.truthy, JVal.pyGet, JVal.pyGetD, JVal.lookupF,
      JVal.orElse, JVal.pyToNum, JVal.isNull, htne, ht, ha, bind, Except.bind,
      pure, Except.pure]

/-- Witness for C5 at the spec's concrete numbers. -/
theorem claim_C5_sleep_postcondition_witness :
    (0:ℚ) < 25200 ∧
    sleepPart (.obj [("sleepTimeSeconds", .num 25200),
      ("awakeSleepSeconds", .num 600)]) 0 =
      .ok { length := .num 420, awake := .num 10, deep := .num 0,
            light := .num 0, rem := .num 0, efficiency := .num 98 } := by
  refine ⟨by norm_num, ?_⟩
  have h := claim_C5_sleep_postcondition.1 25200 600 (by norm_num)
  rw [h]
  with_unfolding_all rfl

/-- C6 counterexample: the date-ranged lactate fallback uses the last
entry of the list whatever its internal `calendarDate` is — here an
entry dated `1999-01-01` is consumed for target date `2024-03-01` — so
"take the last entry whose internal date matches the target date"
misdescribes the code, which never inspects the entry's date. -/
theorem claim_C6_lactate_threshold_fallback_cex :
    (∀ d : JVal, lactPart .null
        (.arr [.obj [("value", .num 100), ("calendarDate", d)]]) .null =
      .ok (.num 100, .null)) ∧
    dateToISO 19783 = "2024-03-01" ∧
    ("1999-01-01" : String) ≠ "2024-03-01" :=
  ⟨fun d => by with_unfolding_all rfl, rfl, by decide⟩

/-- C6 (amended): the "latest value" endpoint is consulted first and a
truthy direct value suppresses the ranged fallback entirely; when the
direct value is absent the fallback takes the LAST entry of the ranged
list unconditionally (no internal-date check); the ×10 correction for
speeds `< 1.0` is applied only on the ranged-fallback path — the
fallback pace for a small speed `q` equals the pace of `10q`, while the
direct path converts the raw speed with no correction (concretely,
speed `0.35` gives pace `"4:45"` via the fallback but `"47:37"`
directly). -/
theorem claim_C6_lactate_threshold_fallback :
    (∀ (h : ℚ), h ≠ 0 → ∀ rangeHr : JVal,
      lactPart (.obj [("heartRate", .num h)]) rangeHr .null =
        .ok (.num h, .null)) ∧
    (∀ (pre : List JVal) (q : ℚ),
      lactPart .null (.arr (pre ++ [.obj [("value", .num q)]])) .null =
        .ok (.num (pyInt q), .null)) ∧
    (∀ (q : ℚ), 0 < q → q < 1 →
      lactPart .null .null (.arr [.obj [("value", .num q)]]) =
        (calculatePace (.num (q * 10))).map
          (fun s => (JVal.null, JVal.str s))) ∧
    (∀ (q : ℚ), 0 < q →
      lactPart (.obj [("speed", .num q)]) .null .null =
        (calculatePace (.num q)).map (fun s => (JVal.null, JVal.str s))) ∧
    lactPart .null .null (.arr [.obj [("value", .num (35/100))]]) =
      .ok (.null, .str "4:45") ∧
    lactPart (.obj [("speed", .num (35/100))]) .null .null =
      .ok (.null, .str "47:37") := by
  refine ⟨?_, ?_, ?_, ?_, by with_unfolding_all rfl, by with_unfolding_all rfl⟩
  · intro h hne rangeHr
    simp [lactPart, JVal.truthy, JVal.pyGet, JVal.pyGetD, JVal.lookupF,
      JVal.orElse, JVal.pyToNum, JVal.isNull, JVal.pyHasKey, JVal.pyIndex,
      hne, bind, Except.bind, pure, Except.pure]
  · intro pre q
    cases pre with
    | nil =>
      simp [lactPart, JVal.truthy, JVal.pyGet, JVal.pyGetD, JVal.lookupF,
        JVal.orElse, JVal.pyToNum, JVal.isNull, JVal.pyHasKey, JVal.pyIndex,
        bind, Except.bind, pure, Except.pure]
    | cons p ps =>
      have hlast : (p :: (ps ++ [JVal.obj [("value", JVal.num q)]])).getLast?
          = some (JVal.obj [("value", JVal.num q)]) := by
        rw [← List.cons_append]
        exact List.getLast?_concat _
      simp [lactPart, JVal.truthy, JVal.pyGet, JVal.pyGetD, JVal.lookupF,
        JVal.orElse, JVal.pyToNum, JVal.isNull, JVal.pyHasKey, JVal.pyIndex,
        bind, Except.bind, pure, Except.pure, hlast]
  · intro q h0 h1
    have h10 : (0:ℚ) < q * 10 := by positivity
    have h10ne : q * 10 ≠ 0 := ne_of_gt h10
    have h10nle : ¬ q * 10 ≤ 0 := not_le.mpr h10
    have hqne : q ≠ 0 := ne_of_gt h0
    simp [lactPart, calculatePace, JVal.truthy, JVal.pyGet, JVal.pyGetD,
      JVal.lookupF, JVal.orElse, JVal.pyToNum, JVal.isNull, JVal.pyHasKey,
      JVal.pyIndex, h0, h1, hqne, h10ne, h10nle, Except.map,
      bind, Except.bind, pure, Except.pure]
  · intro q h0
    have hqne : q ≠ 0 := ne_of_gt h0
    have hnle : ¬ q ≤ 0 := not_le.mpr h0
    simp [lactPart, calculatePace, JVal.truthy, JVal.pyGet, JVal.pyGetD,
      JVal.lookupF, JVal.orElse, JVal.pyToNum, JVal.isNull, JVal.pyHasKey,
      JVal.pyIndex, hqne, hnle, Except.map, bind, Except.bind, pure,
      Except.pure]

/-- Witness for C6 at concrete values: a direct heart rate of 155
suppresses a ranged payload, and speed `0.35` goes through the ×10
correction on the fallback path but not on the direct path. -/
theorem claim_C6_lactate_threshold_fallback_witness :
    ((155:ℚ) ≠ 0 ∧
      lactPart (.obj [("heartRate", .num 155)])
        (.arr [.obj [("value", .num 40)]]) .null = .ok (.num 155, .null)) ∧
    ((0:ℚ) < 35/100 ∧ (35/100:ℚ) < 1 ∧
      lactPart .null .null (.arr [.obj [("value", .num (35/100))]]) =
        (calculatePace (.num (35/100 * 10))).map
          (fun s => (JVal.null, JVal.str s))) ∧
    ((0:ℚ) < 35/100 ∧
      lactPart (.obj [("speed", .num (35/100))]) .null .null =
        (calculatePace (.num (35/100))).map
          (fun s => (JVal.null, JVal.str s))) :=
  ⟨⟨by norm_num, claim_C6_lactate_threshold_fallback.1 155 (by norm_num)
      (.arr [.obj [("value", .num 40)]])⟩,
   ⟨by norm_num, by norm_num,
     claim_C6_lactate_threshold_fallback.2.2.1 (35/100) (by norm_num)
       (by norm_num)⟩,
   ⟨by norm_num,
     claim_C6_lactate_threshold_fallback.2.2.2.1 (35/100) (by norm_num)⟩⟩

/-- C10: intensity-minutes weighting — with the summary present, the
extractor computes `moderateIntensityMinutes + 2 * vigorousIntensityMinutes`,
treating a `None` or missing component as 0, so the field is `0` (not
`None`) when the summary is present but both components are absent. -/
theorem claim_C10_intensity_minutes_weighting :
    (∀ (m v : ℚ), summaryPart (.obj [("moderateIntensityMinutes", .num m),
        ("vigorousIntensityMinutes", .num v)]) =
      .ok { intensity := .num (m + 2 * v) }) ∧
    (∀ (v : ℚ), summaryPart (.obj [("moderateIntensityMinutes", .null),
        ("vigorousIntensityMinutes", .num v)]) =
      .ok { intensity := .num (2 * v) }) ∧
    summaryPart (.obj [("activeKilocalories", .num 100)]) =
      .ok { activeCal := .num 100, intensity := .num 0 } ∧
    (getMetrics c10Bundle 19783 0).intensity_minutes = .num 0 ∧
    JVal.num 0 ≠ JVal.null := by
  refine ⟨?_, ?_, by with_unfolding_all rfl, by with_unfolding_all rfl,
    fun h => JVal.noConfusion h⟩
  · intro m v
    rcases eq_or_ne m 0 with hm | hm <;> rcases eq_or_ne v 0 with hv | hv <;>
      simp [summaryPart, stressDur, JVal.truthy, JVal.pyGet, JVal.pyGetD,
        JVal.lookupF, JVal.orElse, JVal.pyToNum, JVal.isNull, hm, hv,
        bind, Except.bind, pure, Except.pure]
  · intro v
    rcases eq_or_ne v 0 with hv | hv <;>
      simp [summaryPart, stressDur, JVal.truthy, JVal.pyGet, JVal.pyGetD,
        JVal.lookupF, JVal.orElse, JVal.pyToNum, JVal.isNull, hv,
        bind, Except.bind, pure, Except.pure]

end Garmin
